import Mathlib

/-!
Shallow embedding of the `spa_anim2D` add-on's pure logic, together with
proofs about it.

The embedding follows the Python sources:
* `spa_anim2D/animation/core.py`: keyframe queries, shifting and the
  duplication-target computation over grease pencil layers;
* `spa_anim2D/materials/core.py`: material palette registry bookkeeping,
  grease pencil material comparison and duplicate cleanup;
* `spa_anim2D/animation/ops.py` and `spa_anim2D/drawing/ops.py`: the pure
  control flow of the operator callbacks (status-set returns).

Host datablocks (grease pencil data, layers, frames, materials) are modelled
as plain structures; object identity of the host's datablocks is modelled by
positional indices (for layers and frames) or by datablock names, which the
host keeps unique.  Mutation is modelled by explicit state passing; Python
exceptions (`IndexError`, `ValueError`, `AttributeError`) are modelled with
`Option`/`Except` results.
-/

namespace Anim2D

/-- Grease pencil keyframe types, the keys of `keyframe_types` in
`animation/core.py` (the host's five keyframe type enum values), in the
order of that dictionary. -/
inductive KeyframeType
  | KEYFRAME
  | EXTREME
  | BREAKDOWN
  | JITTER
  | MOVING_HOLD
deriving DecidableEq, Repr

/-- Index of a keyframe type in `list(keyframe_types.keys())`. -/
def keyframe_type_index : KeyframeType → Nat
  | .KEYFRAME => 0
  | .EXTREME => 1
  | .BREAKDOWN => 2
  | .JITTER => 3
  | .MOVING_HOLD => 4

/-- A grease pencil frame (host `GPencilFrame`): its frame number and the
flags read by the add-on. -/
structure GPFrame where
  frame_number : Int
  select : Bool
  tag : Bool
  keyframe_type : KeyframeType
deriving DecidableEq, Repr

/-- A grease pencil layer (host `GPencilLayer`): its frames, kept sorted by
frame number by the host, and the flags read by the add-on. -/
structure GPLayer where
  frames : List GPFrame
  lock : Bool
  select : Bool
  hide : Bool
deriving DecidableEq, Repr

/-- Grease pencil data (host `GreasePencil`): its layers and the index of
the active layer (`layers.active`), `none` when there is no active layer. -/
structure GreasePencil where
  layers : List GPLayer
  active_index : Option Nat
deriving DecidableEq, Repr

/-- `LayerTraits` flags (`animation/core.py`), a set of three flags. -/
structure LayerTraits where
  active : Bool
  unlocked : Bool
  selected : Bool
deriving DecidableEq, Repr

/-- `LayerTraits.NONE`: the empty flag set. -/
def LayerTraits.NONE : LayerTraits := ⟨false, false, false⟩

/-- `FrameTraits` flags (`animation/core.py`), a set of two flags. -/
structure FrameTraits where
  selected : Bool
  tag : Bool
deriving DecidableEq, Repr

/-- `FrameTraits.NONE`: the empty flag set. -/
def FrameTraits.NONE : FrameTraits := ⟨false, false⟩

/-- `layer_options_to_traits` from `animation/core.py`. -/
def layer_options_to_traits (active unlocked selected : Bool) : LayerTraits :=
  ⟨active, unlocked, selected⟩

/-- `frame_options_to_traits` from `animation/core.py`. -/
def frame_options_to_traits (selected onion_tag : Bool) : FrameTraits :=
  ⟨selected, onion_tag⟩

/-- The layer predicate of `get_gp_layers`: every flag set in the filter must
hold of the layer (`ACTIVE`: the layer is `gp.layers.active`, modelled by its
index; `UNLOCKED`: the layer is not locked; `SELECTED`: the layer is
selected). -/
def layer_passes (gp : GreasePencil) (filt : LayerTraits) (i : Nat) (l : GPLayer) : Bool :=
  (!filt.active || gp.active_index == some i) &&
  (!filt.unlocked || !l.lock) &&
  (!filt.selected || l.select)

/-- `get_gp_layers` from `animation/core.py`: the layers matching the filter
flags. -/
def get_gp_layers (gp : GreasePencil) (layer_filter : LayerTraits) : List GPLayer :=
  ((gp.layers.enum.filter fun p => layer_passes gp layer_filter p.1 p.2).map Prod.snd)

/-- The frame predicate of `get_gp_keyframes`: frame number within
`[frame_min, frame_max]` and every flag set in the frame filter holds. -/
def frame_passes (filt : FrameTraits) (frame_min frame_max : Int) (f : GPFrame) : Bool :=
  (frame_min ≤ f.frame_number && f.frame_number ≤ frame_max) &&
  (!filt.selected || f.select) &&
  (!filt.tag || f.tag)

/-- Python's `sys.maxsize`, the default `frame_max` of `get_gp_keyframes`. -/
def sys_maxsize : Int := 2 ^ 63 - 1

/-- `get_gp_keyframes` from `animation/core.py`: keyframes of the filtered
layers, within the frame range and matching the frame filter, sorted by
ascending frame number (Python's stable `sorted`). -/
def get_gp_keyframes (gp : GreasePencil) (layer_filter : LayerTraits)
    (frame_filter : FrameTraits) (frame_min frame_max : Int) : List GPFrame :=
  ((get_gp_layers gp layer_filter).flatMap fun l =>
      l.frames.filter (frame_passes frame_filter frame_min frame_max)).mergeSort
    (fun a b => a.frame_number ≤ b.frame_number)

/-- Placeholder frame used to model Python list indexing; every access below
is guarded so that the placeholder is never produced. -/
def dummy_frame : GPFrame := ⟨0, false, false, .KEYFRAME⟩

/-- Placeholder layer, in the same role as `dummy_frame`. -/
def dummy_layer : GPLayer := ⟨[], false, false, false⟩

/-- `gpl.frames[j]` (guarded accesses only). -/
def frame_at (frames : List GPFrame) (j : Nat) : GPFrame :=
  frames.getD j dummy_frame

/-- The initial skip loop of `gp_compute_list_of_frames_to_duplicate`:
`while frame_numbers[i] < first_key: i += 1` starting at `i`.  Returns the
index the loop stops at, or `none` when `frame_numbers[i]` goes out of
range, which in Python raises `IndexError`. -/
def gp_skip_targets (frame_numbers : List Int) (first_key : Int) (i : Nat) : Option Nat :=
  if h : i < frame_numbers.length then
    if frame_numbers.get ⟨i, h⟩ < first_key then gp_skip_targets frame_numbers first_key (i + 1)
    else some i
  else none
termination_by frame_numbers.length - i

/-- The main two-pointer loop of `gp_compute_list_of_frames_to_duplicate`,
with target index `i` and key index `j`.  The loop keeps `j` within range
(`j` is only incremented under `j + 1 < len(frames)`), so the `frame_at`
accesses never hit the placeholder when started with a nonempty `frames`. -/
def gp_dup_loop (frames : List GPFrame) (frame_numbers : List Int) (i j : Nat) :
    List (GPFrame × Int) :=
  if h : i < frame_numbers.length then
    let target := frame_numbers.get ⟨i, h⟩
    let current_key := (frame_at frames j).frame_number
    if target = current_key then
      gp_dup_loop frames frame_numbers (i + 1) j
    else if j + 1 < frames.length then
      if target < (frame_at frames (j + 1)).frame_number then
        (frame_at frames j, target) :: gp_dup_loop frames frame_numbers (i + 1) j
      else
        gp_dup_loop frames frame_numbers i (j + 1)
    else
      (frame_at frames j, target) :: gp_dup_loop frames frame_numbers (i + 1) j
  else []
termination_by (frame_numbers.length - i) + (frames.length - j)
decreasing_by all_goals omega

/-- `gp_compute_list_of_frames_to_duplicate` from `animation/core.py`.
`none` models the `IndexError` raised when the initial skip loop runs past
the end of `frame_numbers`. -/
def gp_compute_list_of_frames_to_duplicate (gpl : GPLayer) (frame_numbers : List Int) :
    Option (List (GPFrame × Int)) :=
  if gpl.frames.length = 0 then some []
  else
    match gp_skip_targets frame_numbers (frame_at gpl.frames 0).frame_number 0 with
    | none => none
    | some i => some (gp_dup_loop gpl.frames frame_numbers i 0)

/-- `min(keyframes, key=lambda x: x.frame_number).frame_number`; only used on
nonempty lists (Python raises `ValueError` on an empty one). -/
def min_frame_number : List GPFrame → Int
  | [] => 0
  | f :: fs => fs.foldl (fun m g => min m g.frame_number) f.frame_number

/-- In-place `keyframe.frame_number += offset`, as a pure frame update. -/
def shift_frame (offset : Int) (f : GPFrame) : GPFrame :=
  { f with frame_number := f.frame_number + offset }

/-- `shift_keyframes` from `animation/core.py`.  Returns the Python return
value paired with the keyframes after the in-place mutation. -/
def shift_keyframes (keyframes : List GPFrame) (offset frame_min : Int)
    (adjust_offset : Bool) : Bool × List GPFrame :=
  let min_value := min_frame_number keyframes
  if min_value < frame_min then (false, keyframes)
  else if min_value + offset < frame_min && !adjust_offset then (false, keyframes)
  else
    let offset := if min_value + offset < frame_min then frame_min - min_value else offset
    if offset = 0 then (false, keyframes)
    else (true, keyframes.map (shift_frame offset))

/-- `shift_gp_keyframes` from `animation/core.py`.  The Python function
mutates the frames collected by `get_gp_keyframes` in place through
`shift_keyframes`; here the grease pencil state after the call is returned
together with the Python return value (the moved keyframes, or `[]`). -/
def shift_gp_keyframes (gp : GreasePencil) (frame_start offset : Int)
    (adjust_offset only_active_layer only_unlocked_layers only_selected_layers : Bool) :
    GreasePencil × List GPFrame :=
  let traits := layer_options_to_traits only_active_layer only_unlocked_layers
    only_selected_layers
  let frame_min := frame_start + 1
  let keyframes := get_gp_keyframes gp traits FrameTraits.NONE frame_min sys_maxsize
  if keyframes.isEmpty then (gp, [])
  else
    let res := shift_keyframes keyframes offset frame_min adjust_offset
    if res.1 then
      -- the offset actually applied by `shift_keyframes` to the collected frames
      let min_value := min_frame_number keyframes
      let o := if min_value + offset < frame_min then frame_min - min_value else offset
      ({ gp with
          layers := gp.layers.enum.map fun p =>
            if layer_passes gp traits p.1 p.2 then
              { p.2 with
                  frames := p.2.frames.map fun f =>
                    if frame_passes FrameTraits.NONE frame_min sys_maxsize f then
                      shift_frame o f
                    else f }
            else p.2 },
        res.2)
    else (gp, [])

/-! ### Materials (`spa_anim2D/materials/core.py`) -/

/-- A value of one of the grease pencil material attributes compared by
`are_similar_gp_materials`: a flag, an enum string, or a property array
(turned into a plain list for comparison, as the Python code does).  Color
components are modelled as integers; only their equality is ever used. -/
inductive GPAttrVal
  | flag : Bool → GPAttrVal
  | enum : String → GPAttrVal
  | arr : List Int → GPAttrVal
deriving DecidableEq, Repr

/-- The grease pencil settings of a material (host `MaterialGPencilStyle`):
exactly the ten attributes listed in `gp_material_comparison_attributes`. -/
structure GPMaterialSettings where
  show_stroke : Bool
  mode : String
  stroke_style : String
  color : List Int
  use_stroke_holdout : Bool
  use_overlap_strokes : Bool
  show_fill : Bool
  fill_style : String
  fill_color : List Int
  use_fill_holdout : Bool
deriving DecidableEq, Repr

/-- A material datablock (host `Material`): its name (kept unique among
materials by the host), whether it has grease pencil settings, whether it
comes from a linked library, and its grease pencil settings. -/
structure Material where
  name : String
  is_grease_pencil : Bool
  library : Bool
  grease_pencil : GPMaterialSettings
deriving DecidableEq, Repr

/-- `DEFAULT_PALETTE_ID` from `materials/core.py`. -/
def DEFAULT_PALETTE_ID : String := "-"

/-- `PALETTE_NAME_SEPARATOR` from `materials/core.py`. -/
def PALETTE_NAME_SEPARATOR : String := "/"

/-- `gp_material_comparison_attributes` from `materials/core.py`: the ten
attribute names compared by `are_similar_gp_materials`, in order. -/
def gp_material_comparison_attributes : List String :=
  ["show_stroke", "mode", "stroke_style", "color", "use_stroke_holdout",
   "use_overlap_strokes", "show_fill", "fill_style", "fill_color", "use_fill_holdout"]

/-- Python's `getattr(material.grease_pencil, attr)` for the ten compared
attributes (with `bpy_prop_array` values already turned into lists). -/
def gp_getattr (g : GPMaterialSettings) : String → GPAttrVal
  | "show_stroke" => .flag g.show_stroke
  | "mode" => .enum g.mode
  | "stroke_style" => .enum g.stroke_style
  | "color" => .arr g.color
  | "use_stroke_holdout" => .flag g.use_stroke_holdout
  | "use_overlap_strokes" => .flag g.use_overlap_strokes
  | "show_fill" => .flag g.show_fill
  | "fill_style" => .enum g.fill_style
  | "fill_color" => .arr g.fill_color
  | "use_fill_holdout" => .flag g.use_fill_holdout
  | _ => .flag false

/-- `split_material_name` from `materials/core.py`:
`name.split(PALETTE_NAME_SEPARATOR, 1)` — split at the first occurrence of
the separator (a single character, `"/"`), leaving the rest untouched;
Python returns the whole name as a one-element list when the separator does
not occur. -/
def split_material_name (name : String) : List String :=
  match name.toList.findIdx? (fun c => c == '/') with
  | none => [name]
  | some i => [(name.toList.take i).asString, (name.toList.drop (i + 1)).asString]

/-- `get_palette_name` from `materials/core.py`: `split[0]` when the split
found a separator, `None` otherwise. -/
def get_palette_name (m : Material) : Option String :=
  match split_material_name m.name with
  | p :: _ :: _ => some p
  | _ => none

/-- Python truthiness of `get_palette_name(mat)` (`None` and the empty
string are falsy), as used by `cleanup_duplicated_materials` and
`refresh_palettes` to skip materials without palette information. -/
def palette_truthy (m : Material) : Bool :=
  match get_palette_name m with
  | none => false
  | some p => !(p == "")

/-- `get_grease_pencil_materials` from `materials/core.py`, over the list of
material datablocks of `bpy.data`. -/
def get_grease_pencil_materials (data : List Material) (only_local : Bool) : List Material :=
  data.filter fun m => m.is_grease_pencil && (!m.library || !only_local)

/-- `are_similar_gp_materials` from `materials/core.py`.  `Except.error`
models the `ValueError` raised when either material has no grease pencil
settings.  The function reads but never writes its arguments, and so does
the model. -/
def are_similar_gp_materials (materialA materialB : Material) : Except String Bool :=
  if !materialA.is_grease_pencil || !materialB.is_grease_pencil then
    .error "This method only works on grease pencil materials"
  else
    .ok (gp_material_comparison_attributes.all fun attr =>
      gp_getattr materialA.grease_pencil attr == gp_getattr materialB.grease_pencil attr)

/-- The comparison result of `are_similar_gp_materials` at call sites where
both materials are known to have grease pencil settings (inside
`cleanup_duplicated_materials` every compared material comes from
`get_grease_pencil_materials`, so the error branch is unreachable there). -/
def similar_ok (a b : Material) : Bool :=
  match are_similar_gp_materials a b with
  | .ok v => v
  | .error _ => false

/-- Modelled from the spec: `remove_auto_numbering_suffix` is defined in
`spa_anim2D/utils.py`, which is not among the available sources.  The spec
describes the grouping key of the palette cleanup as the material name
normalized by dropping the host's auto-numbering suffix — the `.NNN`
(dot plus three digits) suffix the host appends to keep datablock names
unique. -/
def remove_auto_numbering_suffix (name : String) : String :=
  match name.toList.reverse with
  | d1 :: d2 :: d3 :: '.' :: rest =>
    if d1.isDigit && d2.isDigit && d3.isDigit then rest.reverse.asString else name
  | _ => name

/-- Appending a value to the list at `key` of an insertion-ordered
string-keyed dictionary (`d.setdefault(key, []).append(v)` in effect),
creating the key at the end when absent.  Used both for the cleanup's
candidate groups and for the material palettes registry. -/
def dict_append {α : Type} (d : List (String × List α)) (key : String) (v : α) :
    List (String × List α) :=
  match d with
  | [] => [(key, [v])]
  | (k, vs) :: rest =>
    if k = key then (k, vs ++ [v]) :: rest else (k, vs) :: dict_append rest key v

/-- Lookup in an insertion-ordered string-keyed dictionary. -/
def dict_find {α : Type} (d : List (String × List α)) (key : String) : Option (List α) :=
  match d with
  | [] => none
  | (k, vs) :: rest => if k = key then some vs else dict_find rest key

/-- The first pass of `cleanup_duplicated_materials`: group the local grease
pencil materials that carry palette information by their auto-numbering-free
short name, keeping the host's material order inside each group. -/
def group_similar_candidates (mats : List Material) : List (String × List Material) :=
  mats.foldl
    (fun groups mat =>
      if palette_truthy mat then
        dict_append groups (remove_auto_numbering_suffix mat.name) mat
      else groups)
    []

/-- Adding a material to the `orphan_mats` set (Python `set.add`). -/
def set_add (s : List Material) (m : Material) : List Material :=
  if m ∈ s then s else s ++ [m]

/-- The inner loop of the cleanup's second pass: compare `matA` against the
remaining materials of its group, remap similar ones to `matA` (recorded as
a `(duplicate, kept)` pair) and mark them orphaned. -/
def remap_similar (matA : Material) (rest orphans : List Material) :
    List (Material × Material) × List Material :=
  match rest with
  | [] => ([], orphans)
  | b :: bs =>
    if similar_ok matA b then
      let r := remap_similar matA bs (set_add orphans b)
      ((b, matA) :: r.1, r.2)
    else remap_similar matA bs orphans

/-- The outer loop of the cleanup's second pass over one candidate group,
starting at index `i` with the orphan set accumulated so far.  Returns the
`(duplicate, kept)` remap pairs performed and the grown orphan set. -/
def cleanup_group (materials : List Material) (i : Nat) (orphans : List Material) :
    List (Material × Material) × List Material :=
  if h : i < materials.length then
    let matA := materials.get ⟨i, h⟩
    if matA ∈ orphans then cleanup_group materials (i + 1) orphans
    else
      let r := remap_similar matA (materials.drop (i + 1)) orphans
      let r2 := cleanup_group materials (i + 1) r.2
      (r.1 ++ r2.1, r2.2)
  else ([], orphans)
termination_by materials.length - i

/-- `cleanup_duplicated_materials` from `materials/core.py`, over the
material datablocks of `bpy.data`.  Returns the `(duplicate, kept)`
user-remap pairs performed and the materials left after
`bpy.data.batch_remove(orphan_mats)`. -/
def cleanup_duplicated_materials (data : List Material) :
    List (Material × Material) × List Material :=
  let groups := group_similar_candidates (get_grease_pencil_materials data true)
  let r := groups.foldl
    (fun acc g =>
      if g.2.length = 1 then acc
      else
        let rg := cleanup_group g.2 0 acc.2
        (acc.1 ++ rg.1, rg.2))
    ([], [])
  (r.1, data.filter fun m => !(decide (m ∈ r.2)))

/-- The global `material_palettes` registry: an insertion-ordered mapping
from palette names to material lists. -/
abbrev MaterialPalettesRegistry := List (String × List Material)

/-- The key list of the registry, Python's `list(material_palettes)`. -/
def registry_keys (reg : MaterialPalettesRegistry) : List String :=
  reg.map Prod.fst

/-- `clear_material_palettes` from `materials/core.py`: the cleared
registry. -/
def clear_material_palettes : MaterialPalettesRegistry := []

/-- `refresh_palettes` from `materials/core.py`, on initialized host data:
clear the registry, optionally run the material cleanup first, initialize
the default palette, then fill the registry from the grease pencil material
datablocks, skipping materials whose palette component is falsy or the
default id.  (The grease-pencil-object material re-assignment done in the
cleanup branch touches host objects, not the registry, and is outside the
modelled state.) -/
def refresh_palettes (data : List Material) (cleanup_materials : Bool) :
    MaterialPalettesRegistry :=
  let data := if cleanup_materials then (cleanup_duplicated_materials data).2 else data
  (get_grease_pencil_materials data false).foldl
    (fun reg mat =>
      match get_palette_name mat with
      | none => reg
      | some palette =>
        if palette = "" then reg
        else if palette = DEFAULT_PALETTE_ID then reg
        else dict_append reg palette mat)
    [(DEFAULT_PALETTE_ID, [])]

/-- `on_load_pre` from `materials/core.py` (file `load_pre` handler): clears
the registry. -/
def on_load_pre (_reg : MaterialPalettesRegistry) : MaterialPalettesRegistry :=
  clear_material_palettes

/-- `on_load_post` from `materials/core.py` (file `load_post` handler):
rebuilds the registry from the host material datablocks. -/
def on_load_post (_reg : MaterialPalettesRegistry) (data : List Material) :
    MaterialPalettesRegistry :=
  refresh_palettes data false

/-- `on_undo_redo` from `materials/core.py` (registered for both `undo_post`
and `redo_post`): rebuilds the registry from the host material datablocks. -/
def on_undo_redo (_reg : MaterialPalettesRegistry) (data : List Material) :
    MaterialPalettesRegistry :=
  refresh_palettes data false

/-- Python's `list.index`, returning the first index of `x` or `none` for
the `ValueError` case. -/
def list_index (l : List String) (x : String) : Option Nat :=
  match l with
  | [] => none
  | y :: ys => if y = x then some 0 else (list_index ys x).map (· + 1)

/-- `set_material_palette_value` from `materials/core.py`: store the palette
name string found at `index` in the registry key list as the new value of
the grease pencil's `material_palette_str` id-property.  `Except.error`
models the `IndexError` of `list(material_palettes)[index]`. -/
def set_material_palette_value (reg : MaterialPalettesRegistry) (index : Nat) :
    Except String (Option String) :=
  match (registry_keys reg).get? index with
  | none => .error "IndexError"
  | some name => .ok (some name)

/-- `get_material_palette_value` from `materials/core.py`: the enum index of
the stored palette name in the registry, falling back to `0` (and resetting
the stored name to the default palette id when the stored name is not a
registry key).  Takes and returns the `material_palette_str` id-property
(`none` when unset). -/
def get_material_palette_value (reg : MaterialPalettesRegistry) (stored : Option String) :
    Nat × Option String :=
  match stored with
  | none => (0, none)
  | some s =>
    match list_index (registry_keys reg) s with
    | some i => (i, some s)
    | none => (0, some DEFAULT_PALETTE_ID)

/-! ### Operator callbacks (`animation/ops.py`, `drawing/ops.py`) -/

/-- The host status-set values returned by the add-on's operator callbacks
(each Python callback returns a one-element set of such strings). -/
inductive OpStatus
  | CANCELLED
  | FINISHED
  | RUNNING_MODAL
  | PASS_THROUGH
deriving DecidableEq, Repr

/-- The context read by `TRANSFORM_OT_keyframes_shift`: the active object's
grease pencil data (its `poll` guarantees one) and the scene's current
frame. -/
structure ShiftContext where
  gp : GreasePencil
  frame_current : Int
deriving Repr

/-- The keyframes collected by `TRANSFORM_OT_keyframes_shift.setup`: all
keyframes after the current frame on unlocked layers matching the operator's
layer options. -/
def keyframes_shift_setup (ctx : ShiftContext) (only_active_layer only_selected_layers : Bool) :
    List GPFrame :=
  get_gp_keyframes ctx.gp
    (layer_options_to_traits only_active_layer true only_selected_layers)
    FrameTraits.NONE (ctx.frame_current + 1) sys_maxsize

/-- `TRANSFORM_OT_keyframes_shift.execute` on the non-invoked path
(`options.is_invoke` false): `setup` has just run, so the first keyframe
still has its initial value and the absolute offset equals the operator's
`offset` property.  The invoked path reuses the keyframes stored by
`invoke`'s own `setup` call and computes the same offset, so the status it
returns is this one as well. -/
def keyframes_shift_execute (ctx : ShiftContext)
    (offset : Int) (only_active_layer only_selected_layers : Bool) : OpStatus :=
  let keyframes := keyframes_shift_setup ctx only_active_layer only_selected_layers
  if keyframes.isEmpty then .CANCELLED
  else
    let res := shift_keyframes keyframes offset (ctx.frame_current + 1) true
    if res.1 then .FINISHED else .CANCELLED

/-- `TRANSFORM_OT_keyframes_shift.invoke`: cancelled when `setup` finds no
keyframe after the current frame, modal in interactive mode, otherwise the
`execute` status. -/
def keyframes_shift_invoke (ctx : ShiftContext)
    (offset : Int) (only_active_layer only_selected_layers interactive : Bool) : OpStatus :=
  let keyframes := keyframes_shift_setup ctx only_active_layer only_selected_layers
  if keyframes.isEmpty then .CANCELLED
  else if interactive then .RUNNING_MODAL
  else keyframes_shift_execute ctx offset only_active_layer only_selected_layers

/-- The `GPencilFlippingSettings` property group read by
`ANIM_OT_keyframes_flip` (`keyframe_types` is a five-entry boolean
vector). -/
structure FlippingSettings where
  use_filter : Bool
  keyframe_types : List Bool
  layer_mode : String
  loop : Bool
  use_preview_range : Bool
deriving Repr

/-- The context read by `ANIM_OT_keyframes_flip.execute`: the active
object's grease pencil data, its flipping settings, and the scene's current
frame and preview range. -/
structure FlipContext where
  gp : GreasePencil
  flipping : FlippingSettings
  frame_current : Int
  frame_preview_start : Int
  frame_preview_end : Int
  use_preview_range : Bool
deriving Repr

/-- The layer selection of `ANIM_OT_keyframes_flip.execute`: all visible
layers in `"VISIBLE"` mode, the active layer otherwise.  When the layer mode
is not `"VISIBLE"` and there is no active layer, the Python code builds
`[None]` and iterating `None.frames` raises `AttributeError`, modelled by
`Except.error`. -/
def flip_layers (ctx : FlipContext) : Except String (List GPLayer) :=
  if ctx.flipping.layer_mode = "VISIBLE" then
    .ok (ctx.gp.layers.filter fun gpl => !gpl.hide)
  else
    match ctx.gp.active_index.bind fun i => ctx.gp.layers.get? i with
    | some l => .ok [l]
    | none => .error "AttributeError"

/-- The keyframe filtering of `ANIM_OT_keyframes_flip.execute`: the flat
list of the selected layers' keyframes, filtered by keyframe type (when the
type filter is on) and by the scene's preview range (when both preview-range
toggles are on). -/
def flip_frames (ctx : FlipContext) (layers : List GPLayer) : List GPFrame :=
  let frames := (layers.flatMap GPLayer.frames).filter fun kf =>
    !ctx.flipping.use_filter ||
      ctx.flipping.keyframe_types.getD (keyframe_type_index kf.keyframe_type) false
  if ctx.flipping.use_preview_range && ctx.use_preview_range then
    frames.filter fun kf =>
      ctx.frame_preview_start ≤ kf.frame_number &&
        kf.frame_number ≤ ctx.frame_preview_end
  else frames

/-- The target search of `ANIM_OT_keyframes_flip.execute`: the first
keyframe, in flip order, strictly on the requested side of the current
frame, defaulting to the first keyframe of the sorted list when looping is
enabled. -/
def flip_target (ctx : FlipContext) (direction : String) (frames : List GPFrame) :
    Option GPFrame :=
  let sorted_frames :=
    if direction = "LEFT" then
      frames.mergeSort fun a b => b.frame_number ≤ a.frame_number
    else
      frames.mergeSort fun a b => a.frame_number ≤ b.frame_number
  let cmp : Int → Int → Bool := fun x y =>
    if direction = "LEFT" then decide (x < y) else decide (x > y)
  let fallback := if ctx.flipping.loop then sorted_frames.head? else none
  match sorted_frames.find? fun kf => cmp kf.frame_number ctx.frame_current with
  | some kf => some kf
  | none => fallback

/-- `ANIM_OT_keyframes_flip.execute`.  Returns the status set and the
scene's current frame after the call. -/
def keyframes_flip_execute (ctx : FlipContext) (direction : String) :
    Except String (OpStatus × Int) :=
  match flip_layers ctx with
  | .error e => .error e
  | .ok layers =>
    let frames := flip_frames ctx layers
    if frames.isEmpty then .ok (.CANCELLED, ctx.frame_current)
    else
      match flip_target ctx direction frames with
      | some kf => .ok (.FINISHED, kf.frame_number)
      | none => .ok (.CANCELLED, ctx.frame_current)

/-- `GPENCIL_OT_quick_edit_strokes_duplicate.modal` from `drawing/ops.py`:
finishes on confirming or cancelling mouse events and passes every other
event through to the host. -/
def quick_edit_strokes_duplicate_modal (event_type event_value : String) : OpStatus :=
  if (event_type = "LEFTMOUSE" ∨ event_type = "ENTER") ∧ event_value = "RELEASE" then
    .FINISHED
  else if (event_type = "RIGHTMOUSE" ∨ event_type = "ESC") ∧ event_value = "RELEASE" then
    .FINISHED
  else .PASS_THROUGH

/-! ### Claim-side definitions

The definitions below restate properties in the words of the specification,
to be compared against the source-translated functions above. -/

/-- Claim-side: the keyframe of `frames` visible at frame `t` — the one with
the greatest frame number less than or equal to `t` (for frame lists sorted
by ascending frame number). -/
def visible_keyframe (frames : List GPFrame) (t : Int) : Option GPFrame :=
  (frames.filter fun f => f.frame_number ≤ t).getLast?

/-- Claim-side: the duplication list expected from
`gp_compute_list_of_frames_to_duplicate` — one `(visible keyframe, target)`
pair for every target at or after the first keyframe that does not collide
with an existing keyframe, in target order. -/
def duplication_targets_spec (frames : List GPFrame) (frame_numbers : List Int) :
    List (GPFrame × Int) :=
  match frames with
  | [] => []
  | f0 :: _ =>
    (frame_numbers.filter fun t =>
        decide (f0.frame_number ≤ t) &&
          !(decide (t ∈ frames.map GPFrame.frame_number))).filterMap
      fun t => (visible_keyframe frames t).map fun f => (f, t)

/-- Claim-side: the tuple of compared grease pencil attribute values of a
material; two grease pencil materials are similar exactly when their tuples
coincide. -/
def gp_attr_key (m : Material) : List GPAttrVal :=
  gp_material_comparison_attributes.map (gp_getattr m.grease_pencil)

/-- Placeholder material, in the same role as `dummy_frame`. -/
def dummy_material : Material :=
  ⟨"", false, false, ⟨false, "", "", [], false, false, false, "", [], false⟩⟩

/-- Claim-side: group member at index `k` has an earlier similar member in
the group. -/
def isDupAt (g : List Material) (k : Nat) : Prop :=
  ∃ k', k' < k ∧ k' < g.length ∧
    gp_attr_key (g.getD k' dummy_material) = gp_attr_key (g.getD k dummy_material)

/-- Claim-side: the index of the first group member with the same
comparison-attribute tuple as the member at index `k` — the member that
survives the cleanup and receives the users of the later duplicates. -/
def firstIdx (g : List Material) (k : Nat) : Nat :=
  g.findIdx fun m => gp_attr_key m == gp_attr_key (g.getD k dummy_material)

/-! ## Helper lemmas -/

theorem foldl_min_le_init (fs : List GPFrame) (a : Int) :
    fs.foldl (fun m g => min m g.frame_number) a ≤ a := by
  induction fs generalizing a with
  | nil => simp
  | cons g gs ih =>
    simp only [List.foldl_cons]
    exact le_trans (ih (min a g.frame_number)) (min_le_left _ _)

theorem foldl_min_le_mem (fs : List GPFrame) (a : Int) :
    ∀ f ∈ fs, fs.foldl (fun m g => min m g.frame_number) a ≤ f.frame_number := by
  induction fs generalizing a with
  | nil => intro f hf; cases hf
  | cons g gs ih =>
    intro f hf
    simp only [List.mem_cons] at hf
    simp only [List.foldl_cons]
    rcases hf with rfl | hf
    · exact le_trans (foldl_min_le_init gs _) (min_le_right _ _)
    · exact ih (min a g.frame_number) f hf

theorem foldl_min_mem (fs : List GPFrame) (a : Int) :
    fs.foldl (fun m g => min m g.frame_number) a = a ∨
      ∃ f ∈ fs, fs.foldl (fun m g => min m g.frame_number) a = f.frame_number := by
  induction fs generalizing a with
  | nil => simp
  | cons g gs ih =>
    simp only [List.foldl_cons]
    rcases ih (min a g.frame_number) with h | ⟨f, hf, h⟩
    · rcases min_choice a g.frame_number with hm | hm
      · left; rw [h, hm]
      · right; exact ⟨g, by simp, by rw [h, hm]⟩
    · right; exact ⟨f, by simp [hf], h⟩

theorem min_frame_number_mem (ks : List GPFrame) (h : ks ≠ []) :
    min_frame_number ks ∈ ks.map GPFrame.frame_number := by
  match ks with
  | [] => exact absurd rfl h
  | f :: fs =>
    simp only [min_frame_number, List.map_cons, List.mem_cons]
    rcases foldl_min_mem fs f.frame_number with h1 | ⟨g, hg, h1⟩
    · left; exact h1
    · right; rw [h1]; exact List.mem_map_of_mem GPFrame.frame_number hg

theorem min_frame_number_le (ks : List GPFrame) :
    ∀ f ∈ ks, min_frame_number ks ≤ f.frame_number := by
  match ks with
  | [] => intro f hf; cases hf
  | f :: fs =>
    intro x hx
    simp only [List.mem_cons] at hx
    simp only [min_frame_number]
    rcases hx with rfl | hx
    · exact foldl_min_le_init fs x.frame_number
    · exact foldl_min_le_mem fs f.frame_number x hx

theorem min_frame_number_eq (ks : List GPFrame) (m : Int)
    (hmem : m ∈ ks.map GPFrame.frame_number)
    (hle : ∀ f ∈ ks, m ≤ f.frame_number) :
    min_frame_number ks = m := by
  have hne : ks ≠ [] := by rintro rfl; simp at hmem
  have h1 := min_frame_number_mem ks hne
  simp only [List.mem_map] at h1 hmem
  obtain ⟨f1, hf1, hfeq⟩ := h1
  obtain ⟨f2, hf2, hfeq2⟩ := hmem
  have h2 := min_frame_number_le ks f2 hf2
  have h3 := hle f1 hf1
  omega

theorem list_index_spec (l : List String) (x : String) :
    (∀ i, list_index l x = some i → i < l.length ∧ l.getD i "" = x) ∧
    (list_index l x = none ↔ x ∉ l) := by
  induction l with
  | nil => simp [list_index]
  | cons y ys ih =>
    by_cases h : y = x
    · subst h
      simp [list_index]
    · simp only [list_index, if_neg h]
      constructor
      · intro i hi
        simp only [Option.map_eq_some'] at hi
        obtain ⟨j, hj, rfl⟩ := hi
        have := ih.1 j hj
        simpa using this
      · simp only [Option.map_eq_none', List.mem_cons]
        rw [ih.2]
        constructor
        · intro hx
          rintro (rfl | hmem)
          · exact h rfl
          · exact hx hmem
        · intro hx
          exact fun hmem => hx (Or.inr hmem)

/-! ## Claims -/

/-- **C7.** `are_similar_gp_materials` raises `ValueError` exactly when one
of the two materials is not a grease pencil material; otherwise it returns
`True` exactly when the two materials agree on all ten attributes of
`gp_material_comparison_attributes`.  (The embedding is a pure function of
both materials, mirroring that the Python code only reads attributes and
never assigns any.) -/
theorem are_similar_gp_materials_spec (a b : Material) :
    ((∃ e, are_similar_gp_materials a b = .error e) ↔
        ¬(a.is_grease_pencil = true ∧ b.is_grease_pencil = true)) ∧
    (a.is_grease_pencil = true → b.is_grease_pencil = true →
      are_similar_gp_materials a b =
        .ok (decide (∀ attr ∈ gp_material_comparison_attributes,
          gp_getattr a.grease_pencil attr = gp_getattr b.grease_pencil attr))) := by
  constructor
  · by_cases ha : a.is_grease_pencil <;> by_cases hb : b.is_grease_pencil <;>
      simp [are_similar_gp_materials, ha, hb]
  · intro ha hb
    have hcond : (!a.is_grease_pencil || !b.is_grease_pencil) = false := by
      rw [ha, hb]; rfl
    simp only [are_similar_gp_materials, hcond, Bool.false_eq_true, if_false]
    congr 1
    rw [Bool.eq_iff_iff, List.all_eq_true, decide_eq_true_iff]
    constructor
    · intro h attr hattr
      have := h attr hattr
      exact beq_iff_eq.mp this
    · intro h attr hattr
      exact beq_iff_eq.mpr (h attr hattr)

/-- **C2.** `shift_keyframes` on a nonempty keyframe list with minimum frame
number `m`: it returns `False` and leaves the keyframes unchanged when
`m < frame_min`, when `adjust_offset` is off and `m + offset < frame_min`,
or when the (possibly adjusted) offset is zero; otherwise it adds the
offset — replaced by `frame_min - m` when `adjust_offset` is on and
`m + offset < frame_min` — to every keyframe's frame number and returns
`True`. -/
theorem shift_keyframes_spec (keyframes : List GPFrame) (offset frame_min : Int)
    (adjust_offset : Bool) (m : Int)
    (hmem : m ∈ keyframes.map GPFrame.frame_number)
    (hle : ∀ f ∈ keyframes, m ≤ f.frame_number) :
    shift_keyframes keyframes offset frame_min adjust_offset =
      (let o := if adjust_offset = true ∧ m + offset < frame_min then frame_min - m
                else offset
       if m < frame_min ∨ (adjust_offset = false ∧ m + offset < frame_min) ∨ o = 0 then
         (false, keyframes)
       else (true, keyframes.map fun f => { f with frame_number := f.frame_number + o })) := by
  have hmin : min_frame_number keyframes = m := min_frame_number_eq keyframes m hmem hle
  simp only [shift_keyframes, hmin]
  by_cases h1 : m < frame_min
  · simp [h1]
  · by_cases h2 : m + offset < frame_min
    · cases adjust_offset with
      | false => simp [h1, h2]
      | true =>
        simp only [h1, h2, if_true, if_false, Bool.not_true, Bool.and_false,
          Bool.false_eq_true, true_and, and_true, false_or]
        by_cases h3 : frame_min - m = 0 <;>
          simp [h1, h2, h3, shift_frame]
    · by_cases h3 : offset = 0 <;>
        cases adjust_offset <;>
          simp [h1, h2, h3, shift_frame]

/-- Witness for `shift_keyframes_spec` at a concrete input. -/
theorem shift_keyframes_spec_witness :
    shift_keyframes [⟨3, false, false, .KEYFRAME⟩, ⟨5, true, false, .KEYFRAME⟩] 2 0 false =
      (true, [⟨5, false, false, .KEYFRAME⟩, ⟨7, true, false, .KEYFRAME⟩]) := by
  have h := shift_keyframes_spec
    [⟨3, false, false, .KEYFRAME⟩, ⟨5, true, false, .KEYFRAME⟩] 2 0 false 3
    (by decide) (by decide)
  rw [h]
  decide

/-- The initial skip loop runs out of targets when every remaining target is
strictly below the first keyframe, which is Python's `IndexError`. -/
theorem gp_skip_targets_eq_none (fns : List Int) (first : Int) (i : Nat)
    (h : ∀ k, (hk : k < fns.length) → i ≤ k → fns.get ⟨k, hk⟩ < first) :
    gp_skip_targets fns first i = none := by
  rw [gp_skip_targets]
  split
  · next hlt =>
    rw [if_pos (h i hlt (Nat.le_refl i))]
    exact gp_skip_targets_eq_none fns first (i + 1) fun k hk hik => h k hk (by omega)
  · rfl
termination_by fns.length - i

/-- **C9.** On a layer with at least one keyframe,
`gp_compute_list_of_frames_to_duplicate` raises `IndexError` whenever
`frame_numbers` is empty or every entry is strictly below the first
keyframe's frame number: the initial skip loop indexes past the end of
`frame_numbers`. -/
theorem gp_frames_to_duplicate_index_error (gpl : GPLayer) (fns : List Int)
    (hne : gpl.frames ≠ [])
    (hall : ∀ t ∈ fns, t < (frame_at gpl.frames 0).frame_number) :
    gp_compute_list_of_frames_to_duplicate gpl fns = none := by
  have hlen : gpl.frames.length ≠ 0 := fun h => hne (List.length_eq_zero.mp h)
  simp only [gp_compute_list_of_frames_to_duplicate, if_neg hlen]
  rw [gp_skip_targets_eq_none fns _ 0 fun k hk _ => hall _ (fns.get_mem k hk)]

/-- Witness for `gp_frames_to_duplicate_index_error` at a concrete input. -/
theorem gp_frames_to_duplicate_index_error_witness :
    gp_compute_list_of_frames_to_duplicate ⟨[⟨3, false, false, .KEYFRAME⟩], false, false, false⟩
      [1, 2] = none := by
  exact gp_frames_to_duplicate_index_error
    ⟨[⟨3, false, false, .KEYFRAME⟩], false, false, false⟩ [1, 2]
    (by decide) (by decide)

/-- **C10.** The `GreasePencil.material_palette` accessors keep the stored
id-property consistent with the palettes registry: the setter stores the
palette name found at the given index of the registry key list (raising
`IndexError` past the end); the getter returns the index of the stored name
in the key list, resets the stored name to the default palette id and
returns `0` when the stored name is absent, and its result is a valid index
into the registry whenever the registry is nonempty. -/
theorem material_palette_accessors_spec (reg : MaterialPalettesRegistry)
    (stored : Option String) (index : Nat) :
    (index < (registry_keys reg).length →
      set_material_palette_value reg index = .ok (some ((registry_keys reg).getD index ""))) ∧
    ((registry_keys reg).length ≤ index →
      set_material_palette_value reg index = .error "IndexError") ∧
    (∀ s, stored = some s → s ∈ registry_keys reg →
      (registry_keys reg).getD (get_material_palette_value reg stored).1 "" = s ∧
      (get_material_palette_value reg stored).2 = some s) ∧
    (∀ s, stored = some s → s ∉ registry_keys reg →
      get_material_palette_value reg stored = (0, some DEFAULT_PALETTE_ID)) ∧
    (stored = none → get_material_palette_value reg stored = (0, none)) ∧
    (reg ≠ [] → (get_material_palette_value reg stored).1 < (registry_keys reg).length) := by
  have hklen : registry_keys reg ≠ [] → 0 < (registry_keys reg).length := by
    intro h
    cases hk : registry_keys reg with
    | nil => exact absurd hk h
    | cons a l => simp
  refine ⟨?_, ?_, ?_, ?_, ?_, ?_⟩
  · intro hidx
    simp only [set_material_palette_value]
    rw [List.get?_eq_get hidx]
    simp [List.getD_eq_getElem?_getD, List.getElem?_eq_getElem hidx, List.get_eq_getElem]
  · intro hidx
    simp only [set_material_palette_value]
    rw [List.get?_eq_none.mpr hidx]
  · rintro s rfl hmem
    simp only [get_material_palette_value]
    cases hfind : list_index (registry_keys reg) s with
    | none =>
      exact absurd ((list_index_spec _ _).2.mp hfind) (by simpa using hmem)
    | some i =>
      have := (list_index_spec (registry_keys reg) s).1 i hfind
      simp [this.2, ← List.getD_eq_getElem?_getD]
  · rintro s rfl hmem
    simp only [get_material_palette_value]
    cases hfind : list_index (registry_keys reg) s with
    | none => rfl
    | some i =>
      exfalso
      have h1 := (list_index_spec (registry_keys reg) s).1 i hfind
      apply hmem
      have hm2 : (registry_keys reg).getD i "" ∈ registry_keys reg := by
        rw [List.getD_eq_getElem?_getD, List.getElem?_eq_getElem h1.1]
        exact List.getElem_mem h1.1
      rwa [h1.2] at hm2
  · rintro rfl
    rfl
  · intro hne
    have hk : registry_keys reg ≠ [] := by
      simpa [registry_keys] using hne
    cases stored with
    | none => simpa [get_material_palette_value] using hklen hk
    | some s =>
      simp only [get_material_palette_value]
      cases hfind : list_index (registry_keys reg) s with
      | none => simpa using hklen hk
      | some i =>
        have := (list_index_spec (registry_keys reg) s).1 i hfind
        simpa using this.1

/-- **C5.** `get_gp_keyframes` returns exactly the keyframes lying on layers
that satisfy every flag set in the layer filter (`ACTIVE`: the layer is the
active layer; `UNLOCKED`: the layer is not locked; `SELECTED`: the layer is
selected) whose frame number lies in `[frame_min, frame_max]` and which
satisfy every flag set in the frame filter — stated as a permutation of the
flat list of such keyframes — and the returned list is sorted by ascending
frame number. -/
theorem get_gp_keyframes_spec (gp : GreasePencil) (lf : LayerTraits) (ff : FrameTraits)
    (fmin fmax : Int) :
    (get_gp_keyframes gp lf ff fmin fmax).Perm
      ((gp.layers.enum.filter fun p =>
          (!lf.active || gp.active_index == some p.1) &&
          (!lf.unlocked || !p.2.lock) &&
          (!lf.selected || p.2.select)).flatMap fun p =>
        p.2.frames.filter fun f =>
          (fmin ≤ f.frame_number && f.frame_number ≤ fmax) &&
          (!ff.selected || f.select) && (!ff.tag || f.tag)) ∧
    (get_gp_keyframes gp lf ff fmin fmax).Pairwise
      fun a b => a.frame_number ≤ b.frame_number := by
  constructor
  · refine (List.mergeSort_perm _ _).trans ?_
    rw [get_gp_layers, List.flatMap_map]
    rfl
  · have h := @List.sorted_mergeSort GPFrame
      (fun a b : GPFrame => decide (a.frame_number ≤ b.frame_number))
      (fun a b c hab hbc => by
        simp only [decide_eq_true_eq] at hab hbc ⊢
        omega)
      (fun a b => by
        simp only [Bool.or_eq_true, decide_eq_true_eq]
        omega)
      ((get_gp_layers gp lf).flatMap fun l =>
        l.frames.filter (frame_passes ff fmin fmax))
    exact h.imp fun hab => of_decide_eq_true hab

/-- The result of `shift_gp_keyframes` when `get_gp_keyframes` collects no
keyframe. -/
theorem shift_gp_keyframes_empty (gp : GreasePencil) (frame_start offset : Int)
    (adjust_offset oa ou os : Bool)
    (h : get_gp_keyframes gp (layer_options_to_traits oa ou os) FrameTraits.NONE
      (frame_start + 1) sys_maxsize = []) :
    shift_gp_keyframes gp frame_start offset adjust_offset oa ou os = (gp, []) := by
  simp [shift_gp_keyframes, h]

/-- The result of `shift_gp_keyframes` when `shift_keyframes` reports no
shift. -/
theorem shift_gp_keyframes_noshift (gp : GreasePencil) (frame_start offset : Int)
    (adjust_offset oa ou os : Bool)
    (h2 : (shift_keyframes
      (get_gp_keyframes gp (layer_options_to_traits oa ou os) FrameTraits.NONE
        (frame_start + 1) sys_maxsize) offset (frame_start + 1) adjust_offset).1 = false) :
    shift_gp_keyframes gp frame_start offset adjust_offset oa ou os = (gp, []) := by
  by_cases h : get_gp_keyframes gp (layer_options_to_traits oa ou os) FrameTraits.NONE
      (frame_start + 1) sys_maxsize = []
  · simp [shift_gp_keyframes, h]
  · simp only [shift_gp_keyframes, List.isEmpty_iff, h2]
    rw [if_neg h]
    simp

/-- The result of `shift_gp_keyframes` when `shift_keyframes` applies a
shift: the collected frames of every filtered layer are shifted in place by
the effective offset, and the shifted keyframes are returned. -/
theorem shift_gp_keyframes_shift (gp : GreasePencil) (frame_start offset : Int)
    (adjust_offset oa ou os : Bool)
    (hne : get_gp_keyframes gp (layer_options_to_traits oa ou os) FrameTraits.NONE
      (frame_start + 1) sys_maxsize ≠ [])
    (h2 : (shift_keyframes
      (get_gp_keyframes gp (layer_options_to_traits oa ou os) FrameTraits.NONE
        (frame_start + 1) sys_maxsize) offset (frame_start + 1) adjust_offset).1 = true) :
    shift_gp_keyframes gp frame_start offset adjust_offset oa ou os =
      (let keyframes := get_gp_keyframes gp (layer_options_to_traits oa ou os)
         FrameTraits.NONE (frame_start + 1) sys_maxsize
       let o := if min_frame_number keyframes + offset < frame_start + 1 then
           frame_start + 1 - min_frame_number keyframes
         else offset
       ({ gp with
           layers := gp.layers.enum.map fun p =>
             if layer_passes gp (layer_options_to_traits oa ou os) p.1 p.2 then
               { p.2 with
                   frames := p.2.frames.map fun f =>
                     if frame_passes FrameTraits.NONE (frame_start + 1) sys_maxsize f then
                       shift_frame o f
                     else f }
             else p.2 },
         (shift_keyframes keyframes offset (frame_start + 1) adjust_offset).2)) := by
  simp only [shift_gp_keyframes, List.isEmpty_iff, h2]
  rw [if_neg hne]
  simp

/-- When `shift_keyframes` reports a shift, the effective offset is nonzero,
the minimum was not below `frame_min`, and the returned keyframes are the
input shifted by the effective offset. -/
theorem shift_keyframes_true_spec (keyframes : List GPFrame) (offset frame_min : Int)
    (adjust_offset : Bool)
    (h : (shift_keyframes keyframes offset frame_min adjust_offset).1 = true) :
    ¬ min_frame_number keyframes < frame_min ∧
    (if min_frame_number keyframes + offset < frame_min then
        frame_min - min_frame_number keyframes
      else offset) ≠ 0 ∧
    frame_min ≤ min_frame_number keyframes +
      (if min_frame_number keyframes + offset < frame_min then
          frame_min - min_frame_number keyframes
        else offset) ∧
    (shift_keyframes keyframes offset frame_min adjust_offset).2 =
      keyframes.map (shift_frame
        (if min_frame_number keyframes + offset < frame_min then
            frame_min - min_frame_number keyframes
          else offset)) := by
  by_cases h1 : min_frame_number keyframes < frame_min
  · simp [shift_keyframes, h1] at h
  · by_cases h2 : min_frame_number keyframes + offset < frame_min
    · cases adjust_offset with
      | false => simp [shift_keyframes, h1, h2] at h
      | true =>
        by_cases h3 : frame_min - min_frame_number keyframes = 0
        · simp [shift_keyframes, h1, h2, h3] at h
        · refine ⟨h1, by simpa [h2] using h3, by simp only [if_pos h2]; omega, ?_⟩
          simp [shift_keyframes, h1, h2, h3]
    · by_cases h3 : offset = 0
      · simp [shift_keyframes, h1, h2, h3] at h
      · refine ⟨h1, by simpa [h2] using h3, by simp only [if_neg h2]; omega, ?_⟩
        cases adjust_offset <;> simp [shift_keyframes, h1, h2, h3]

theorem layers_map_enum_getD (ls : List GPLayer) (F : Nat × GPLayer → GPLayer) (li : Nat)
    (h : li < ls.length) :
    (ls.enum.map F).getD li dummy_layer = F (li, ls.getD li dummy_layer) := by
  have h1 : li < (ls.enum.map F).length := by
    simpa [List.enum_length] using h
  have h2 : li < ls.enum.length := by
    simpa [List.enum_length] using h
  simp [List.getD_eq_getElem?_getD, List.getElem?_eq_getElem, h, h1,
    List.getElem_map, List.getElem_enum]

theorem frames_map_getD (fs : List GPFrame) (G : GPFrame → GPFrame) (fi : Nat)
    (h : fi < fs.length) :
    (fs.map G).getD fi dummy_frame = G (fs.getD fi dummy_frame) := by
  have h1 : fi < (fs.map G).length := by
    simpa using h
  simp [List.getD_eq_getElem?_getD, List.getElem?_eq_getElem, h, h1, List.getElem_map]

/-- **C6.** `shift_gp_keyframes` moves only keyframes with frame number at
least `frame_start + 1` lying on layers that pass the active/unlocked/
selected filter: the layer structure is preserved, filtered-out layers and
keyframes at or before `frame_start` are unchanged, and any changed
keyframe had frame number at least `frame_start + 1`.  It returns the list
of moved keyframes: the empty list (with the data unchanged) when no
keyframe matched or `shift_keyframes` applied no shift, and otherwise
exactly the collected keyframes shifted by a nonzero effective offset `o`,
with every in-scope keyframe of the data shifted by that same `o` and
everything else untouched; every returned keyframe sits after
`frame_start`. -/
theorem shift_gp_keyframes_frame_effect (gp : GreasePencil) (frame_start offset : Int)
    (adjust_offset oa ou os : Bool) (gp' : GreasePencil) (moved : List GPFrame)
    (heq : shift_gp_keyframes gp frame_start offset adjust_offset oa ou os = (gp', moved)) :
    gp'.layers.length = gp.layers.length ∧
    (∀ li, li < gp.layers.length →
      (layer_passes gp (layer_options_to_traits oa ou os) li
          (gp.layers.getD li dummy_layer) = false →
        gp'.layers.getD li dummy_layer = gp.layers.getD li dummy_layer) ∧
      (gp'.layers.getD li dummy_layer).frames.length =
        (gp.layers.getD li dummy_layer).frames.length ∧
      (∀ fi, fi < (gp.layers.getD li dummy_layer).frames.length →
        (((gp.layers.getD li dummy_layer).frames.getD fi dummy_frame).frame_number ≤
            frame_start →
          (gp'.layers.getD li dummy_layer).frames.getD fi dummy_frame =
            (gp.layers.getD li dummy_layer).frames.getD fi dummy_frame) ∧
        ((gp'.layers.getD li dummy_layer).frames.getD fi dummy_frame ≠
            (gp.layers.getD li dummy_layer).frames.getD fi dummy_frame →
          frame_start + 1 ≤
            ((gp.layers.getD li dummy_layer).frames.getD fi dummy_frame).frame_number))) ∧
    (moved = [] → gp' = gp) ∧
    (∀ f ∈ moved, frame_start + 1 ≤ f.frame_number) ∧
    (get_gp_keyframes gp (layer_options_to_traits oa ou os) FrameTraits.NONE
        (frame_start + 1) sys_maxsize = [] → gp' = gp ∧ moved = []) ∧
    ((shift_keyframes (get_gp_keyframes gp (layer_options_to_traits oa ou os)
        FrameTraits.NONE (frame_start + 1) sys_maxsize) offset (frame_start + 1)
        adjust_offset).1 = false → gp' = gp ∧ moved = []) ∧
    (∃ o : Int, (gp' = gp ∧ moved = []) ∨
      (o ≠ 0 ∧
       moved = (get_gp_keyframes gp (layer_options_to_traits oa ou os) FrameTraits.NONE
         (frame_start + 1) sys_maxsize).map (shift_frame o) ∧
       ∀ li, li < gp.layers.length →
         ∀ fi, fi < (gp.layers.getD li dummy_layer).frames.length →
           (gp'.layers.getD li dummy_layer).frames.getD fi dummy_frame =
             (if (layer_passes gp (layer_options_to_traits oa ou os) li
                   (gp.layers.getD li dummy_layer) &&
                 frame_passes FrameTraits.NONE (frame_start + 1) sys_maxsize
                   ((gp.layers.getD li dummy_layer).frames.getD fi dummy_frame)) = true then
                shift_frame o ((gp.layers.getD li dummy_layer).frames.getD fi dummy_frame)
              else (gp.layers.getD li dummy_layer).frames.getD fi dummy_frame))) := by
  by_cases hk : get_gp_keyframes gp (layer_options_to_traits oa ou os) FrameTraits.NONE
      (frame_start + 1) sys_maxsize = []
  · rw [shift_gp_keyframes_empty gp frame_start offset adjust_offset oa ou os hk] at heq
    obtain ⟨rfl, rfl⟩ := Prod.mk.inj heq
    exact ⟨rfl, fun li _ => ⟨fun _ => rfl, rfl, fun fi _ => ⟨fun _ => rfl, fun hne => absurd rfl hne⟩⟩,
      fun _ => rfl, by simp, fun _ => ⟨rfl, rfl⟩, fun _ => ⟨rfl, rfl⟩, ⟨0, Or.inl ⟨rfl, rfl⟩⟩⟩
  · by_cases hres : (shift_keyframes
        (get_gp_keyframes gp (layer_options_to_traits oa ou os) FrameTraits.NONE
          (frame_start + 1) sys_maxsize) offset (frame_start + 1) adjust_offset).1 = true
    · rw [shift_gp_keyframes_shift gp frame_start offset adjust_offset oa ou os hk hres] at heq
      obtain ⟨h1, h2, h3, h4⟩ := shift_keyframes_true_spec _ offset (frame_start + 1)
        adjust_offset hres
      simp only at heq
      obtain ⟨rfl, rfl⟩ := Prod.mk.inj heq
      refine ⟨by simp [List.enum_length], ?_, ?_, ?_, fun h5 => absurd h5 hk,
        ?_, ?_⟩
      · intro li hli
        rw [layers_map_enum_getD gp.layers _ li hli]
        by_cases hpass : layer_passes gp (layer_options_to_traits oa ou os) li
            (gp.layers.getD li dummy_layer) = true
        · rw [if_pos hpass]
          refine ⟨?_, by simp, ?_⟩
          · intro hcontra
            rw [hpass] at hcontra
            cases hcontra
          intro fi hfi
          rw [frames_map_getD _ _ fi hfi]
          by_cases hfp : frame_passes FrameTraits.NONE (frame_start + 1) sys_maxsize
              ((gp.layers.getD li dummy_layer).frames.getD fi dummy_frame) = true
          · rw [if_pos hfp]
            have hge : frame_start + 1 ≤
                ((gp.layers.getD li dummy_layer).frames.getD fi dummy_frame).frame_number := by
              simp only [frame_passes, FrameTraits.NONE, Bool.not_false, Bool.or_true,
                Bool.and_true, Bool.and_eq_true, decide_eq_true_eq] at hfp
              exact hfp.1.1.1
            exact ⟨fun hle => by omega, fun _ => hge⟩
          · rw [if_neg hfp]
            exact ⟨fun _ => rfl, fun hne => absurd rfl hne⟩
        · rw [if_neg hpass]
          exact ⟨fun _ => rfl, rfl, fun fi _ => ⟨fun _ => rfl, fun hne => absurd rfl hne⟩⟩
      · intro hmoved
        rw [h4] at hmoved
        exact absurd (List.map_eq_nil.mp hmoved) hk
      · intro f hf
        rw [h4] at hf
        obtain ⟨g, hg, rfl⟩ := List.mem_map.mp hf
        have := min_frame_number_le _ g hg
        simp only [shift_frame]
        omega
      · intro h6
        rw [hres] at h6
        cases h6
      · refine ⟨_, Or.inr ⟨h2, h4, ?_⟩⟩
        intro li hli fi hfi
        rw [layers_map_enum_getD gp.layers _ li hli]
        by_cases hpass : layer_passes gp (layer_options_to_traits oa ou os) li
            (gp.layers.getD li dummy_layer) = true
        · rw [if_pos hpass]
          rw [frames_map_getD _ _ fi hfi]
          by_cases hfp : frame_passes FrameTraits.NONE (frame_start + 1) sys_maxsize
              ((gp.layers.getD li dummy_layer).frames.getD fi dummy_frame) = true
          · have hcond : (layer_passes gp (layer_options_to_traits oa ou os) li
                  (gp.layers.getD li dummy_layer) &&
                frame_passes FrameTraits.NONE (frame_start + 1) sys_maxsize
                  ((gp.layers.getD li dummy_layer).frames.getD fi dummy_frame)) = true := by
              rw [hpass, hfp]
              rfl
            rw [if_pos hfp, if_pos hcond]
          · have hfpf : frame_passes FrameTraits.NONE (frame_start + 1) sys_maxsize
                ((gp.layers.getD li dummy_layer).frames.getD fi dummy_frame) = false :=
              Bool.eq_false_iff.mpr hfp
            have hcond : (layer_passes gp (layer_options_to_traits oa ou os) li
                  (gp.layers.getD li dummy_layer) &&
                frame_passes FrameTraits.NONE (frame_start + 1) sys_maxsize
                  ((gp.layers.getD li dummy_layer).frames.getD fi dummy_frame)) = false := by
              rw [hfpf]
              simp
            rw [if_neg hfp, if_neg (fun hcontra => Bool.false_ne_true (hcond ▸ hcontra))]
        · rw [if_neg hpass]
          have hpassf : layer_passes gp (layer_options_to_traits oa ou os) li
              (gp.layers.getD li dummy_layer) = false := Bool.eq_false_iff.mpr hpass
          have hcond : (layer_passes gp (layer_options_to_traits oa ou os) li
                (gp.layers.getD li dummy_layer) &&
              frame_passes FrameTraits.NONE (frame_start + 1) sys_maxsize
                ((gp.layers.getD li dummy_layer).frames.getD fi dummy_frame)) = false := by
            rw [hpassf]
            simp
          rw [if_neg (fun hcontra => Bool.false_ne_true (hcond ▸ hcontra))]
    · rw [shift_gp_keyframes_noshift gp frame_start offset adjust_offset oa ou os
        (Bool.eq_false_iff.mpr hres)] at heq
      obtain ⟨rfl, rfl⟩ := Prod.mk.inj heq
      exact ⟨rfl, fun li _ => ⟨fun _ => rfl, rfl, fun fi _ => ⟨fun _ => rfl, fun hne => absurd rfl hne⟩⟩,
        fun _ => rfl, by simp, fun _ => ⟨rfl, rfl⟩, fun _ => ⟨rfl, rfl⟩, ⟨0, Or.inl ⟨rfl, rfl⟩⟩⟩

/-- Witness for `shift_gp_keyframes_frame_effect` at a concrete input. -/
theorem shift_gp_keyframes_frame_effect_witness :
    (⟨[⟨[⟨4, false, false, .KEYFRAME⟩], false, false, false⟩], some 0⟩ : GreasePencil).layers.length = 1 ∧
    ∀ f ∈ (shift_gp_keyframes ⟨[⟨[⟨4, false, false, .KEYFRAME⟩], false, false, false⟩], some 0⟩
        3 1 false false false false).2, (3 : Int) + 1 ≤ f.frame_number := by
  have h := shift_gp_keyframes_frame_effect
    ⟨[⟨[⟨4, false, false, .KEYFRAME⟩], false, false, false⟩], some 0⟩ 3 1 false false false false
    (shift_gp_keyframes ⟨[⟨[⟨4, false, false, .KEYFRAME⟩], false, false, false⟩], some 0⟩
      3 1 false false false false).1
    (shift_gp_keyframes ⟨[⟨[⟨4, false, false, .KEYFRAME⟩], false, false, false⟩], some 0⟩
      3 1 false false false false).2 rfl
  exact ⟨rfl, h.2.2.2.1⟩

theorem frame_at_eq_get (frames : List GPFrame) (j : Nat) (hj : j < frames.length) :
    frame_at frames j = frames.get ⟨j, hj⟩ := by
  simp [frame_at, List.getD_eq_getElem?_getD, List.getElem?_eq_getElem hj,
    List.get_eq_getElem]

theorem keys_lt_of_lt (frames : List GPFrame)
    (hsf : (frames.map GPFrame.frame_number).Pairwise (· < ·))
    (j k : Nat) (hk : k < frames.length) (hjk : j < k) :
    (frames.get ⟨j, lt_trans hjk hk⟩).frame_number < (frames.get ⟨k, hk⟩).frame_number := by
  have h := List.pairwise_iff_get.mp hsf
    ⟨j, by simpa using lt_trans hjk hk⟩ ⟨k, by simpa using hk⟩ hjk
  simpa [List.get_eq_getElem, List.getElem_map] using h

theorem not_mem_keys (frames : List GPFrame)
    (hsf : (frames.map GPFrame.frame_number).Pairwise (· < ·))
    (j : Nat) (hj : j < frames.length) (t : Int)
    (hlt : (frames.get ⟨j, hj⟩).frame_number < t)
    (hub : ∀ k, (hk : k < frames.length) → j < k → t < (frames.get ⟨k, hk⟩).frame_number) :
    t ∉ frames.map GPFrame.frame_number := by
  intro hmem
  obtain ⟨⟨k, hk⟩, hkeq⟩ := List.mem_iff_get.mp hmem
  have hk2 : k < frames.length := by simpa using hk
  have hkeq2 : (frames.get ⟨k, hk2⟩).frame_number = t := by
    simpa [List.get_eq_getElem, List.getElem_map] using hkeq
  rcases lt_trichotomy j k with hjk | rfl | hkj
  · have := hub k hk2 hjk
    omega
  · omega
  · rcases Nat.lt_or_ge k j with hkj2 | hkj2
    · have := keys_lt_of_lt frames hsf k j hj hkj
      omega
    · omega

theorem visible_keyframe_at_index (frames : List GPFrame)
    (hsf : (frames.map GPFrame.frame_number).Pairwise (· < ·))
    (j : Nat) (hj : j < frames.length) (t : Int)
    (h1 : (frames.get ⟨j, hj⟩).frame_number ≤ t)
    (h2 : ∀ k, (hk : k < frames.length) → j < k → t < (frames.get ⟨k, hk⟩).frame_number) :
    visible_keyframe frames t = some (frames.get ⟨j, hj⟩) := by
  induction frames generalizing j with
  | nil => cases hj
  | cons f rest ih =>
    cases j with
    | zero =>
      have hrest : rest.filter (fun g => decide (g.frame_number ≤ t)) = [] := by
        rw [List.filter_eq_nil_iff]
        intro g hg
        obtain ⟨⟨k, hk⟩, hkeq⟩ := List.mem_iff_get.mp hg
        have hk2 : k + 1 < (f :: rest).length := by simpa using Nat.succ_lt_succ hk
        have := h2 (k + 1) hk2 (Nat.succ_pos k)
        simp only [List.get_eq_getElem, List.getElem_cons_succ] at this
        rw [List.get_eq_getElem] at hkeq
        rw [hkeq] at this
        simpa using this
      simp only [List.get_eq_getElem, List.getElem_cons_zero] at h1 ⊢
      simp [visible_keyframe, List.filter_cons, h1, hrest]
    | succ j' =>
      have hj' : j' < rest.length := by simpa using hj
      have hsf' : (rest.map GPFrame.frame_number).Pairwise (· < ·) := by
        simp only [List.map_cons, List.pairwise_cons] at hsf
        exact hsf.2
      have hflt : f.frame_number < (rest.get ⟨j', hj'⟩).frame_number := by
        simp only [List.map_cons, List.pairwise_cons] at hsf
        exact hsf.1 _ (List.mem_map_of_mem GPFrame.frame_number (rest.get_mem j' hj'))
      have h1' : (rest.get ⟨j', hj'⟩).frame_number ≤ t := by
        simpa [List.get_eq_getElem, List.getElem_cons_succ] using h1
      have h2' : ∀ k, (hk : k < rest.length) → j' < k →
          t < (rest.get ⟨k, hk⟩).frame_number := by
        intro k hk hjk
        have hk2 : k + 1 < (f :: rest).length := by simpa using Nat.succ_lt_succ hk
        have := h2 (k + 1) hk2 (Nat.succ_lt_succ hjk)
        simpa [List.get_eq_getElem, List.getElem_cons_succ] using this
      have hrec := ih hsf' j' hj' h1' h2'
      have hfpass : decide (f.frame_number ≤ t) = true := by
        simp only [decide_eq_true_eq]
        omega
      have hne : rest.filter (fun g => decide (g.frame_number ≤ t)) ≠ [] := by
        intro hnil
        rw [List.filter_eq_nil_iff] at hnil
        have := hnil (rest.get ⟨j', hj'⟩) (rest.get_mem j' hj')
        simp only [decide_eq_true_eq] at this
        omega
      simp only [visible_keyframe, List.filter_cons, hfpass, if_true] at hrec ⊢
      cases hfr : rest.filter (fun g => decide (g.frame_number ≤ t)) with
      | nil => exact absurd hfr hne
      | cons b l' =>
        rw [hfr] at hrec
        rw [List.getLast?_cons_cons]
        rw [hrec]
        simp [List.get_eq_getElem, List.getElem_cons_succ]

theorem gp_skip_targets_none_forall (fns : List Int) (first : Int) (i : Nat)
    (h : gp_skip_targets fns first i = none) :
    ∀ k, (hk : k < fns.length) → i ≤ k → fns.get ⟨k, hk⟩ < first := by
  intro k hk hik
  rw [gp_skip_targets] at h
  split at h
  · next hlt =>
    split at h
    · next hfirst =>
      rcases Nat.eq_or_lt_of_le hik with rfl | hik2
      · exact hfirst
      · exact gp_skip_targets_none_forall fns first (i + 1) h k hk hik2
    · cases h
  · next hge => omega
termination_by fns.length - i

theorem gp_skip_targets_some (fns : List Int) (first : Int) (i i0 : Nat)
    (h : gp_skip_targets fns first i = some i0) :
    i ≤ i0 ∧ ∃ h0 : i0 < fns.length, ¬ fns.get ⟨i0, h0⟩ < first ∧
      ∀ k, (hk : k < fns.length) → i ≤ k → k < i0 → fns.get ⟨k, hk⟩ < first := by
  rw [gp_skip_targets] at h
  split at h
  · next hlt =>
    split at h
    · next hfirst =>
      obtain ⟨hi1, h0, hnot, hrest⟩ := gp_skip_targets_some fns first (i + 1) i0 h
      refine ⟨by omega, h0, hnot, ?_⟩
      intro k hk hik hki0
      rcases Nat.eq_or_lt_of_le hik with rfl | hik2
      · exact hfirst
      · exact hrest k hk hik2 hki0
    · next hfirst =>
      obtain rfl := Option.some.inj h
      exact ⟨Nat.le_refl i, hlt, hfirst, fun k hk hik hki0 => by omega⟩
  · cases h
termination_by fns.length - i

theorem sorted_drop_le (l : List Int) (hs : l.Pairwise (· < ·)) (i : Nat)
    (hi : i < l.length) : ∀ t ∈ l.drop i, l.get ⟨i, hi⟩ ≤ t := by
  intro t ht
  have hsub : (l.drop i).Pairwise (· < ·) := hs.sublist (List.drop_sublist i l)
  rw [List.drop_eq_getElem_cons hi] at ht hsub
  rw [List.pairwise_cons] at hsub
  rcases List.mem_cons.mp ht with rfl | ht2
  · simp [List.get_eq_getElem]
  · have := hsub.1 t ht2
    simp only [List.get_eq_getElem]
    omega

theorem filter_ge_eq_drop (fns : List Int) (hst : fns.Pairwise (· < ·)) (first : Int)
    (i0 : Nat) (h0 : i0 < fns.length)
    (hbefore : ∀ k, (hk : k < fns.length) → k < i0 → fns.get ⟨k, hk⟩ < first)
    (hat : first ≤ fns.get ⟨i0, h0⟩) (p : Int → Bool) :
    fns.filter (fun t => decide (first ≤ t) && p t) = (fns.drop i0).filter p := by
  induction fns generalizing i0 with
  | nil => cases h0
  | cons x rest ih =>
    cases i0 with
    | zero =>
      simp only [List.drop_zero]
      apply List.filter_congr
      intro t ht
      have hft : first ≤ t := by
        rcases List.mem_cons.mp ht with rfl | ht2
        · simpa [List.get_eq_getElem] using hat
        · have h1 := (List.pairwise_cons.mp hst).1 t ht2
          have hx : first ≤ x := by simpa [List.get_eq_getElem] using hat
          omega
      simp [hft]
    | succ k =>
      have hx : x < first := by
        have := hbefore 0 (by simp) (Nat.succ_pos k)
        simpa [List.get_eq_getElem] using this
      have hxf : (decide (first ≤ x) && p x) = false := by
        simp only [Bool.and_eq_false_iff, decide_eq_false_iff_not]
        left
        omega
      rw [List.filter_cons, hxf]
      simp only [Bool.false_eq_true, if_false]
      rw [List.drop_succ_cons]
      refine ih (List.pairwise_cons.mp hst).2 k (by simpa using h0) ?_ ?_
      · intro k2 hk2 hk2lt
        have hk3 : k2 + 1 < (x :: rest).length := by simpa using Nat.succ_lt_succ hk2
        have := hbefore (k2 + 1) hk3 (Nat.succ_lt_succ hk2lt)
        simpa [List.get_eq_getElem, List.getElem_cons_succ] using this
      · simpa [List.get_eq_getElem, List.getElem_cons_succ] using hat

theorem gp_dup_loop_spec (frames : List GPFrame) (fns : List Int) (i j : Nat)
    (hsf : (frames.map GPFrame.frame_number).Pairwise (· < ·))
    (hst : fns.Pairwise (· < ·))
    (hj : j < frames.length)
    (hjle : ∀ t ∈ fns.drop i, (frames.get ⟨j, hj⟩).frame_number ≤ t) :
    gp_dup_loop frames fns i j =
      ((fns.drop i).filter fun t =>
          !(decide (t ∈ frames.map GPFrame.frame_number))).filterMap
        fun t => (visible_keyframe frames t).map fun f => (f, t) := by
  rw [gp_dup_loop]
  by_cases hi : i < fns.length
  case neg =>
    rw [dif_neg hi]
    rw [List.drop_eq_nil_of_le (by omega)]
    rfl
  case pos =>
    rw [dif_pos hi]
    have hdrop : fns.drop i = fns.get ⟨i, hi⟩ :: fns.drop (i + 1) := by
      rw [List.drop_eq_getElem_cons hi]
      simp [List.get_eq_getElem]
    have hmemt : fns.get ⟨i, hi⟩ ∈ fns.drop i := by
      rw [hdrop]
      exact List.mem_cons_self _ _
    have htle : (frames.get ⟨j, hj⟩).frame_number ≤ fns.get ⟨i, hi⟩ := hjle _ hmemt
    have hfa : frame_at frames j = frames.get ⟨j, hj⟩ := frame_at_eq_get frames j hj
    have hjle1 : ∀ t ∈ fns.drop (i + 1), (frames.get ⟨j, hj⟩).frame_number ≤ t := by
      intro t ht
      exact hjle t (by rw [hdrop]; exact List.mem_cons_of_mem _ ht)
    by_cases heq : fns.get ⟨i, hi⟩ = (frame_at frames j).frame_number
    · rw [if_pos heq]
      have hkmem : fns.get ⟨i, hi⟩ ∈ frames.map GPFrame.frame_number := by
        rw [heq, hfa]
        exact List.mem_map_of_mem GPFrame.frame_number (frames.get_mem j hj)
      have hcontains : (!(decide (fns.get ⟨i, hi⟩ ∈ frames.map GPFrame.frame_number))) = false := by
        rw [decide_eq_true hkmem]
        rfl
      rw [hdrop, List.filter_cons, hcontains]
      simp only [Bool.false_eq_true, if_false]
      exact gp_dup_loop_spec frames fns (i + 1) j hsf hst hj hjle1
    · rw [if_neg heq]
      have htlt : (frames.get ⟨j, hj⟩).frame_number < fns.get ⟨i, hi⟩ := by
        rw [hfa] at heq
        omega
      by_cases hj1 : j + 1 < frames.length
      · rw [if_pos hj1]
        by_cases hnext : fns.get ⟨i, hi⟩ < (frame_at frames (j + 1)).frame_number
        · rw [if_pos hnext]
          rw [frame_at_eq_get frames (j + 1) hj1] at hnext
          have hub : ∀ k, (hk : k < frames.length) → j < k →
              fns.get ⟨i, hi⟩ < (frames.get ⟨k, hk⟩).frame_number := by
            intro k hk hjk
            rcases Nat.eq_or_lt_of_le (Nat.succ_le_of_lt hjk) with heqk | hlt2
            · subst heqk
              exact hnext
            · have h1 := keys_lt_of_lt frames hsf (j + 1) k hk hlt2
              omega
          have hnot : fns.get ⟨i, hi⟩ ∉ frames.map GPFrame.frame_number :=
            not_mem_keys frames hsf j hj _ htlt hub
          have hcontains : (!(decide (fns.get ⟨i, hi⟩ ∈ frames.map GPFrame.frame_number))) = true := by
            rw [decide_eq_false hnot]
            rfl
          have hvis : visible_keyframe frames (fns.get ⟨i, hi⟩) = some (frames.get ⟨j, hj⟩) :=
            visible_keyframe_at_index frames hsf j hj _ (le_of_lt htlt) hub
          rw [hdrop, List.filter_cons, hcontains]
          simp only [if_true]
          rw [List.filterMap_cons, hvis]
          simp only [Option.map_some']
          rw [hfa]
          exact congrArg _ (gp_dup_loop_spec frames fns (i + 1) j hsf hst hj hjle1)
        · rw [if_neg hnext]
          rw [frame_at_eq_get frames (j + 1) hj1] at hnext
          refine gp_dup_loop_spec frames fns i (j + 1) hsf hst hj1 ?_
          intro t ht
          have h1 := sorted_drop_le fns hst i hi t ht
          omega
      · rw [if_neg hj1]
        have hub : ∀ k, (hk : k < frames.length) → j < k →
            fns.get ⟨i, hi⟩ < (frames.get ⟨k, hk⟩).frame_number := by
          intro k hk hjk
          omega
        have hnot : fns.get ⟨i, hi⟩ ∉ frames.map GPFrame.frame_number :=
          not_mem_keys frames hsf j hj _ htlt hub
        have hcontains : (!(decide (fns.get ⟨i, hi⟩ ∈ frames.map GPFrame.frame_number))) = true := by
          rw [decide_eq_false hnot]
          rfl
        have hvis : visible_keyframe frames (fns.get ⟨i, hi⟩) = some (frames.get ⟨j, hj⟩) :=
          visible_keyframe_at_index frames hsf j hj _ (le_of_lt htlt) hub
        rw [hdrop, List.filter_cons, hcontains]
        simp only [if_true]
        rw [List.filterMap_cons, hvis]
        simp only [Option.map_some']
        rw [hfa]
        exact congrArg _ (gp_dup_loop_spec frames fns (i + 1) j hsf hst hj hjle1)
termination_by (fns.length - i) + (frames.length - j)
decreasing_by all_goals omega

/-- **C1.** For a grease pencil layer whose keyframes are strictly ascending
and a strictly ascending target list containing at least one entry at or
after the first keyframe, `gp_compute_list_of_frames_to_duplicate` returns,
in ascending target order, exactly one `(visible keyframe, target)` pair for
each target at or after the first keyframe with no existing keyframe at that
frame, where the visible keyframe is the layer's keyframe with the greatest
frame number at most the target; colliding or too-early targets produce no
pair, and a layer without keyframes yields the empty list. -/
theorem gp_frames_to_duplicate_spec (gpl : GPLayer) (fns : List Int)
    (hsf : (gpl.frames.map GPFrame.frame_number).Pairwise (· < ·))
    (hst : fns.Pairwise (· < ·)) :
    (gpl.frames = [] → gp_compute_list_of_frames_to_duplicate gpl fns = some []) ∧
    (gpl.frames ≠ [] →
      (∃ t ∈ fns, (frame_at gpl.frames 0).frame_number ≤ t) →
      gp_compute_list_of_frames_to_duplicate gpl fns =
        some (duplication_targets_spec gpl.frames fns)) := by
  constructor
  · intro h
    simp [gp_compute_list_of_frames_to_duplicate, h]
  · intro hne hhit
    have hlen : gpl.frames.length ≠ 0 := fun h => hne (List.length_eq_zero.mp h)
    have h0 : 0 < gpl.frames.length := Nat.pos_of_ne_zero hlen
    simp only [gp_compute_list_of_frames_to_duplicate, if_neg hlen]
    cases hskip : gp_skip_targets fns (frame_at gpl.frames 0).frame_number 0 with
    | none =>
      exfalso
      obtain ⟨t, htmem, htge⟩ := hhit
      obtain ⟨⟨k, hk⟩, rfl⟩ := List.mem_iff_get.mp htmem
      have := gp_skip_targets_none_forall fns _ 0 hskip k hk (Nat.zero_le k)
      omega
    | some i0 =>
      obtain ⟨-, hi0, hnotlt, hbefore⟩ := gp_skip_targets_some fns _ 0 i0 hskip
      have hfa0 : frame_at gpl.frames 0 = gpl.frames.get ⟨0, h0⟩ :=
        frame_at_eq_get gpl.frames 0 h0
      have hjle : ∀ t ∈ fns.drop i0, (gpl.frames.get ⟨0, h0⟩).frame_number ≤ t := by
        intro t ht
        have h1 := sorted_drop_le fns hst i0 hi0 t ht
        rw [hfa0] at hnotlt
        omega
      show some (gp_dup_loop gpl.frames fns i0 0) = some (duplication_targets_spec gpl.frames fns)
      rw [gp_dup_loop_spec gpl.frames fns i0 0 hsf hst h0 hjle]
      refine congrArg _ ?_
      obtain ⟨f0, rest, hframes⟩ : ∃ f0 rest, gpl.frames = f0 :: rest := by
        cases hh : gpl.frames with
        | nil => exact absurd hh hne
        | cons a b => exact ⟨a, b, rfl⟩
      have hfirsteq : f0.frame_number = (frame_at gpl.frames 0).frame_number := by
        rw [hframes]
        rfl
      rw [hframes]
      simp only [duplication_targets_spec]
      have hfiltereq :
          fns.filter (fun t => decide (f0.frame_number ≤ t) &&
              !(decide (t ∈ (f0 :: rest).map GPFrame.frame_number))) =
            (fns.drop i0).filter
              (fun t => !(decide (t ∈ (f0 :: rest).map GPFrame.frame_number))) := by
        refine filter_ge_eq_drop fns hst f0.frame_number i0 hi0 ?_ ?_ _
        · intro k hk hki0
          have := hbefore k hk (Nat.zero_le k) hki0
          rw [hfirsteq]
          exact this
        · rw [hfirsteq]
          omega
      rw [hfiltereq]

/-- Witness for `gp_frames_to_duplicate_spec` at a concrete input (the
two-keyframe fixture of the repository's own tests). -/
theorem gp_frames_to_duplicate_spec_witness :
    gp_compute_list_of_frames_to_duplicate
        ⟨[⟨3, false, false, .KEYFRAME⟩, ⟨6, false, false, .KEYFRAME⟩], false, false, false⟩
        [1, 2, 4, 5, 6, 7] =
      some [(⟨3, false, false, .KEYFRAME⟩, 4), (⟨3, false, false, .KEYFRAME⟩, 5),
        (⟨6, false, false, .KEYFRAME⟩, 7)] := by
  have h := gp_frames_to_duplicate_spec
    ⟨[⟨3, false, false, .KEYFRAME⟩, ⟨6, false, false, .KEYFRAME⟩], false, false, false⟩
    [1, 2, 4, 5, 6, 7] (by decide) (by decide)
  rw [h.2 (by decide) ⟨4, by decide, by decide⟩]
  decide

theorem dict_find_append {α : Type} (d : List (String × List α)) (key : String) (v : α)
    (k : String) :
    dict_find (dict_append d key v) k =
      if k = key then some ((dict_find d key).getD [] ++ [v]) else dict_find d k := by
  induction d with
  | nil =>
    by_cases h : key = k
    · simp [dict_append, dict_find, h]
    · simp [dict_append, dict_find, h, Ne.symm h]
  | cons kv rest ih =>
    obtain ⟨k1, vs⟩ := kv
    by_cases h1 : k1 = key
    · subst h1
      by_cases h2 : k1 = k
      · simp [dict_append, dict_find, h2]
      · simp [dict_append, dict_find, h2, Ne.symm h2]
    · by_cases h2 : k1 = k
      · have hk : ¬ k = key := fun hc => h1 (h2.trans hc)
        simp [dict_append, dict_find, h1, h2, hk]
      · simp [dict_append, dict_find, h1, h2, ih]

theorem refresh_fold_find (l : List Material) (reg : MaterialPalettesRegistry)
    (F : String → List Material)
    (hinv : ∀ p, p ≠ DEFAULT_PALETTE_ID → p ≠ "" →
      dict_find reg p = if F p = [] then none else some (F p))
    (hdef : dict_find reg DEFAULT_PALETTE_ID = some [])
    (hemp : dict_find reg "" = none) :
    (∀ p, p ≠ DEFAULT_PALETTE_ID → p ≠ "" →
      dict_find (l.foldl (fun reg mat =>
          match get_palette_name mat with
          | none => reg
          | some palette =>
            if palette = "" then reg
            else if palette = DEFAULT_PALETTE_ID then reg
            else dict_append reg palette mat) reg) p =
        (if F p ++ l.filter (fun m => get_palette_name m == some p) = [] then none
         else some (F p ++ l.filter (fun m => get_palette_name m == some p)))) ∧
    dict_find (l.foldl (fun reg mat =>
        match get_palette_name mat with
        | none => reg
        | some palette =>
          if palette = "" then reg
          else if palette = DEFAULT_PALETTE_ID then reg
          else dict_append reg palette mat) reg) DEFAULT_PALETTE_ID = some [] ∧
    dict_find (l.foldl (fun reg mat =>
        match get_palette_name mat with
        | none => reg
        | some palette =>
          if palette = "" then reg
          else if palette = DEFAULT_PALETTE_ID then reg
          else dict_append reg palette mat) reg) "" = none := by
  induction l generalizing reg F with
  | nil =>
    refine ⟨?_, hdef, hemp⟩
    intro p hp1 hp2
    simpa using hinv p hp1 hp2
  | cons m rest ih =>
    simp only [List.foldl_cons]
    cases hpal : get_palette_name m with
    | none =>
      dsimp only
      have h := ih reg F hinv hdef hemp
      refine ⟨?_, h.2.1, h.2.2⟩
      intro p hp1 hp2
      rw [h.1 p hp1 hp2]
      have hne : (get_palette_name m == some p) = false := by
        rw [hpal]
        rfl
      rw [List.filter_cons, hne]
      simp only [Bool.false_eq_true, if_false]
    | some q =>
      dsimp only
      by_cases hq1 : q = ""
      · subst hq1
        rw [if_pos rfl]
        have h := ih reg F hinv hdef hemp
        refine ⟨?_, h.2.1, h.2.2⟩
        intro p hp1 hp2
        rw [h.1 p hp1 hp2]
        have hne : (get_palette_name m == some p) = false := by
          rw [hpal]
          simp [Ne.symm hp2]
        rw [List.filter_cons, hne]
        simp only [Bool.false_eq_true, if_false]
      · by_cases hq2 : q = DEFAULT_PALETTE_ID
        · subst hq2
          rw [if_neg hq1, if_pos rfl]
          have h := ih reg F hinv hdef hemp
          refine ⟨?_, h.2.1, h.2.2⟩
          intro p hp1 hp2
          rw [h.1 p hp1 hp2]
          have hne : (get_palette_name m == some p) = false := by
            rw [hpal]
            simp [Ne.symm hp1]
          rw [List.filter_cons, hne]
          simp only [Bool.false_eq_true, if_false]
        · rw [if_neg hq1, if_neg hq2]
          have h := ih (dict_append reg q m)
            (fun p => F p ++ (if get_palette_name m == some p then [m] else []))
            ?_ ?_ ?_
          · refine ⟨?_, h.2.1, h.2.2⟩
            intro p hp1 hp2
            rw [h.1 p hp1 hp2]
            rw [List.filter_cons]
            by_cases hpq : get_palette_name m == some p
            · simp only [hpq, if_true, List.append_assoc, List.singleton_append]
            · have hf : (get_palette_name m == some p) = false := Bool.eq_false_iff.mpr hpq
              simp only [hf, Bool.false_eq_true, if_false, List.append_nil]
          · intro p hp1 hp2
            dsimp only
            rw [dict_find_append]
            by_cases hpq : p = q
            · subst hpq
              have hbeq : (get_palette_name m == some p) = true := by
                rw [hpal]
                exact beq_iff_eq.mpr rfl
              rw [if_pos rfl, hinv p hp1 hp2, hbeq]
              by_cases hFp : F p = [] <;> simp [hFp]
            · have hbeq : (get_palette_name m == some p) = false := by
                rw [hpal]
                exact beq_eq_false_iff_ne.mpr fun hc => hpq (Option.some.inj hc).symm
              rw [if_neg hpq, hinv p hp1 hp2, hbeq]
              simp only [Bool.false_eq_true, if_false, List.append_nil]
          · rw [dict_find_append, if_neg (fun hc : DEFAULT_PALETTE_ID = q => hq2 hc.symm)]
            exact hdef
          · rw [dict_find_append, if_neg (fun hc : "" = q => hq1 hc.symm)]
            exact hemp

/-- **C4 (amended).**  After `refresh_palettes` on initialized host data the
registry maps the default palette id `"-"` to the empty list and maps each
nonempty palette name other than the default id to the list of grease
pencil materials bearing that prefix, in datablock order; a name whose
material list would be empty — including the empty prefix of names that
start with the separator, which the code skips as falsy — is not a key.
The registry is cleared by the `load_pre` handler and rebuilt from the host
material datablocks by the `load_post`, `undo_post` and `redo_post`
handlers. -/
theorem refresh_palettes_spec (data : List Material) (reg0 : MaterialPalettesRegistry) :
    dict_find (refresh_palettes data false) DEFAULT_PALETTE_ID = some [] ∧
    (∀ p : String, p ≠ DEFAULT_PALETTE_ID → p ≠ "" →
      dict_find (refresh_palettes data false) p =
        (if (get_grease_pencil_materials data false).filter
              (fun m => get_palette_name m == some p) = [] then none
         else some ((get_grease_pencil_materials data false).filter
            (fun m => get_palette_name m == some p)))) ∧
    dict_find (refresh_palettes data false) "" = none ∧
    on_load_pre reg0 = [] ∧
    on_load_post reg0 data = refresh_palettes data false ∧
    on_undo_redo reg0 data = refresh_palettes data false := by
  have hinit : ∀ p : String, p ≠ DEFAULT_PALETTE_ID → p ≠ "" →
      dict_find [(DEFAULT_PALETTE_ID, ([] : List Material))] p =
        if ([] : List Material) = [] then none else some [] := by
    intro p hp1 hp2
    simp [dict_find, Ne.symm hp1]
  have hrp : refresh_palettes data false =
      (get_grease_pencil_materials data false).foldl
        (fun reg mat =>
          match get_palette_name mat with
          | none => reg
          | some palette =>
            if palette = "" then reg
            else if palette = DEFAULT_PALETTE_ID then reg
            else dict_append reg palette mat)
        [(DEFAULT_PALETTE_ID, [])] := rfl
  have h := refresh_fold_find (get_grease_pencil_materials data false)
    [(DEFAULT_PALETTE_ID, [])] (fun _ => []) hinit (by simp [dict_find])
    (by simp [dict_find]; decide)
  refine ⟨?_, ?_, ?_, rfl, rfl, rfl⟩
  · rw [hrp]
    exact h.2.1
  · intro p hp1 hp2
    rw [hrp]
    simpa using h.1 p hp1 hp2
  · rw [hrp]
    exact h.2.2

/-- **C4 counterexample.**  A grease pencil material named `"/Fill"` has the
empty string as the prefix before the first separator — a palette name other
than the default id — yet `refresh_palettes` gives the registry no such key:
the code skips falsy palette components. -/
theorem refresh_palettes_empty_prefix_counterexample :
    get_palette_name
        ⟨"/Fill", true, false, ⟨true, "LINE", "SOLID", [0], false, false, false, "SOLID",
          [0], false⟩⟩ = some "" ∧
    dict_find (refresh_palettes
        [⟨"/Fill", true, false, ⟨true, "LINE", "SOLID", [0], false, false, false, "SOLID",
          [0], false⟩⟩] false) "" = none := by
  constructor
  · decide
  · decide

/-- **C8 counterexample.**  The quick-edit strokes-duplicate modal returns
the status set `{"PASS_THROUGH"}` on unhandled events (e.g. a mouse move),
which is none of `{"CANCELLED"}`, `{"FINISHED"}`, `{"RUNNING_MODAL"}`. -/
theorem operator_status_counterexample :
    quick_edit_strokes_duplicate_modal "MOUSEMOVE" "NOTHING" = OpStatus.PASS_THROUGH ∧
    quick_edit_strokes_duplicate_modal "MOUSEMOVE" "NOTHING" ≠ OpStatus.CANCELLED ∧
    quick_edit_strokes_duplicate_modal "MOUSEMOVE" "NOTHING" ≠ OpStatus.FINISHED ∧
    quick_edit_strokes_duplicate_modal "MOUSEMOVAL" "NOTHING" ≠ OpStatus.RUNNING_MODAL := by
  refine ⟨?_, ?_, ?_, ?_⟩ <;> decide

/-- **C8 (amended).**  The modelled operator callbacks return host status
sets: `TRANSFORM_OT_keyframes_shift.invoke` returns `{"CANCELLED"}` when no
keyframe lies after the current frame and `{"RUNNING_MODAL"}` in interactive
mode otherwise; its `execute` returns `{"FINISHED"}` exactly when
`shift_keyframes` reports a shift and `{"CANCELLED"}` otherwise; the
quick-edit strokes-duplicate modal returns `{"FINISHED"}` or
`{"PASS_THROUGH"}`; and `ANIM_OT_keyframes_flip.execute`, whenever its layer
selection is well defined, returns `{"CANCELLED"}` exactly when no keyframe
passes the layer/type/preview-range filters or no flip target exists and
`{"FINISHED"}` otherwise, while with layer mode `"ACTIVE"` and no active
layer it raises `AttributeError` instead of returning a status. -/
theorem operator_status_spec (ctx : ShiftContext) (offset : Int)
    (oa osel interactive : Bool) (fctx : FlipContext) (direction et ev : String) :
    (keyframes_shift_setup ctx oa osel = [] →
      keyframes_shift_invoke ctx offset oa osel interactive = .CANCELLED) ∧
    (keyframes_shift_setup ctx oa osel ≠ [] → interactive = true →
      keyframes_shift_invoke ctx offset oa osel interactive = .RUNNING_MODAL) ∧
    (keyframes_shift_execute ctx offset oa osel = .FINISHED ↔
      keyframes_shift_setup ctx oa osel ≠ [] ∧
        (shift_keyframes (keyframes_shift_setup ctx oa osel) offset
          (ctx.frame_current + 1) true).1 = true) ∧
    (keyframes_shift_execute ctx offset oa osel = .CANCELLED ↔
      ¬(keyframes_shift_setup ctx oa osel ≠ [] ∧
        (shift_keyframes (keyframes_shift_setup ctx oa osel) offset
          (ctx.frame_current + 1) true).1 = true)) ∧
    (quick_edit_strokes_duplicate_modal et ev = .FINISHED ∨
      quick_edit_strokes_duplicate_modal et ev = .PASS_THROUGH) ∧
    (∀ layers, flip_layers fctx = .ok layers →
      (keyframes_flip_execute fctx direction = .ok (.CANCELLED, fctx.frame_current) ↔
        flip_frames fctx layers = [] ∨
          flip_target fctx direction (flip_frames fctx layers) = none) ∧
      (∀ kf, flip_frames fctx layers ≠ [] →
        flip_target fctx direction (flip_frames fctx layers) = some kf →
        keyframes_flip_execute fctx direction = .ok (.FINISHED, kf.frame_number))) ∧
    (fctx.flipping.layer_mode ≠ "VISIBLE" →
      fctx.gp.active_index.bind (fun i => fctx.gp.layers.get? i) = none →
      keyframes_flip_execute fctx direction = .error "AttributeError") := by
  refine ⟨?_, ?_, ?_, ?_, ?_, ?_, ?_⟩
  · intro h
    simp [keyframes_shift_invoke, h]
  · intro h hint
    simp [keyframes_shift_invoke, h, hint]
  · by_cases h : keyframes_shift_setup ctx oa osel = []
    · simp [keyframes_shift_execute, h]
    · by_cases hres : (shift_keyframes (keyframes_shift_setup ctx oa osel) offset
          (ctx.frame_current + 1) true).1 = true
      · simp [keyframes_shift_execute, h, hres]
      · simp [keyframes_shift_execute, h, hres]
  · by_cases h : keyframes_shift_setup ctx oa osel = []
    · simp [keyframes_shift_execute, h]
    · by_cases hres : (shift_keyframes (keyframes_shift_setup ctx oa osel) offset
          (ctx.frame_current + 1) true).1 = true
      · simp [keyframes_shift_execute, h, hres]
      · simp [keyframes_shift_execute, h, hres]
  · by_cases h1 : (et = "LEFTMOUSE" ∨ et = "ENTER") ∧ ev = "RELEASE"
    · left
      simp [quick_edit_strokes_duplicate_modal, h1]
    · by_cases h2 : (et = "RIGHTMOUSE" ∨ et = "ESC") ∧ ev = "RELEASE"
      · left
        simp [quick_edit_strokes_duplicate_modal, h1, h2]
      · right
        simp [quick_edit_strokes_duplicate_modal, h1, h2]
  · intro layers hlay
    constructor
    · by_cases hfr : flip_frames fctx layers = []
      · simp [keyframes_flip_execute, hlay, hfr]
      · cases htgt : flip_target fctx direction (flip_frames fctx layers) with
        | none => simp [keyframes_flip_execute, hlay, hfr, htgt]
        | some kf => simp [keyframes_flip_execute, hlay, hfr, htgt]
    · intro kf hfr htgt
      simp [keyframes_flip_execute, hlay, hfr, htgt]
  · intro hmode hact
    simp only [List.get?_eq_getElem?] at hact
    simp [keyframes_flip_execute, flip_layers, hmode, hact]

theorem getD_eq_get_mat (g : List Material) (k : Nat) (hk : k < g.length) :
    g.getD k dummy_material = g.get ⟨k, hk⟩ := by
  simp [List.getD_eq_getElem?_getD, List.getElem?_eq_getElem hk, List.get_eq_getElem]

theorem getD_eq_getElem_mat (g : List Material) (k : Nat) (hk : k < g.length) :
    g.getD k dummy_material = g[k] := by
  simp [List.getD_eq_getElem?_getD, List.getElem?_eq_getElem hk]

theorem similar_ok_iff (a b : Material) (ha : a.is_grease_pencil = true)
    (hb : b.is_grease_pencil = true) :
    similar_ok a b = true ↔ gp_attr_key a = gp_attr_key b := by
  have hcond : (!a.is_grease_pencil || !b.is_grease_pencil) = false := by
    rw [ha, hb]
    rfl
  simp only [similar_ok, are_similar_gp_materials, hcond, Bool.false_eq_true, if_false]
  rw [List.all_eq_true]
  simp only [gp_attr_key, List.map_eq_map_iff]
  constructor
  · intro h attr hattr
    exact beq_iff_eq.mp (h attr hattr)
  · intro h attr hattr
    exact beq_iff_eq.mpr (h attr hattr)

theorem set_add_mem (s : List Material) (b m : Material) :
    m ∈ set_add s b ↔ m ∈ s ∨ m = b := by
  by_cases h : b ∈ s
  · simp only [set_add, if_pos h]
    constructor
    · exact fun hm => Or.inl hm
    · rintro (hm | rfl)
      · exact hm
      · exact h
  · simp [set_add, if_neg h]

theorem remap_similar_spec (matA : Material) (rest orphans : List Material) :
    (∀ m, m ∈ (remap_similar matA rest orphans).2 ↔
      m ∈ orphans ∨ (m ∈ rest ∧ similar_ok matA m = true)) ∧
    (∀ pr : Material × Material, pr ∈ (remap_similar matA rest orphans).1 ↔
      pr.2 = matA ∧ pr.1 ∈ rest ∧ similar_ok matA pr.1 = true) := by
  induction rest generalizing orphans with
  | nil => simp [remap_similar]
  | cons b bs ih =>
    by_cases hsim : similar_ok matA b = true
    · simp only [remap_similar, if_pos hsim]
      constructor
      · intro m
        rw [(ih (set_add orphans b)).1 m, set_add_mem]
        constructor
        · rintro ((hm | rfl) | ⟨hm, hs⟩)
          · exact Or.inl hm
          · exact Or.inr ⟨List.mem_cons_self _ _, hsim⟩
          · exact Or.inr ⟨List.mem_cons_of_mem _ hm, hs⟩
        · rintro (hm | ⟨hm, hs⟩)
          · exact Or.inl (Or.inl hm)
          · rcases List.mem_cons.mp hm with rfl | hm2
            · exact Or.inl (Or.inr rfl)
            · exact Or.inr ⟨hm2, hs⟩
      · intro pr
        rw [List.mem_cons, (ih (set_add orphans b)).2 pr]
        constructor
        · rintro (rfl | ⟨h1, h2, h3⟩)
          · exact ⟨rfl, List.mem_cons_self _ _, hsim⟩
          · exact ⟨h1, List.mem_cons_of_mem _ h2, h3⟩
        · rintro ⟨h1, h2, h3⟩
          rcases List.mem_cons.mp h2 with heq | hm2
          · left
            obtain ⟨a1, a2⟩ := pr
            simp only at h1 heq
            rw [h1, heq]
          · right
            exact ⟨h1, hm2, h3⟩
    · simp only [remap_similar, if_neg hsim]
      constructor
      · intro m
        rw [(ih orphans).1 m]
        constructor
        · rintro (hm | ⟨hm, hs⟩)
          · exact Or.inl hm
          · exact Or.inr ⟨List.mem_cons_of_mem _ hm, hs⟩
        · rintro (hm | ⟨hm, hs⟩)
          · exact Or.inl hm
          · rcases List.mem_cons.mp hm with rfl | hm2
            · exact absurd hs hsim
            · exact Or.inr ⟨hm2, hs⟩
      · intro pr
        rw [(ih orphans).2 pr]
        constructor
        · rintro ⟨h1, h2, h3⟩
          exact ⟨h1, List.mem_cons_of_mem _ h2, h3⟩
        · rintro ⟨h1, h2, h3⟩
          rcases List.mem_cons.mp h2 with heq | hm2
          · rw [heq] at h3
            exact absurd h3 hsim
          · exact ⟨h1, hm2, h3⟩

theorem firstIdx_le (g : List Material) (k : Nat) (hk : k < g.length) :
    firstIdx g k ≤ k := by
  by_contra h
  push_neg at h
  have hfalse := @List.not_of_lt_findIdx Material
    (fun m => gp_attr_key m == gp_attr_key (g.getD k dummy_material)) g k h
  rw [← getD_eq_getElem_mat g k hk] at hfalse
  simp at hfalse

theorem firstIdx_lt_length (g : List Material) (k : Nat) (hk : k < g.length) :
    firstIdx g k < g.length :=
  lt_of_le_of_lt (firstIdx_le g k hk) hk

theorem firstIdx_key (g : List Material) (k : Nat) (hk : k < g.length) :
    gp_attr_key (g.getD (firstIdx g k) dummy_material) =
      gp_attr_key (g.getD k dummy_material) := by
  have h1 := @List.findIdx_getElem Material
    (fun m => gp_attr_key m == gp_attr_key (g.getD k dummy_material)) g
    (firstIdx_lt_length g k hk)
  have h2 : (gp_attr_key (g.getD (firstIdx g k) dummy_material) ==
      gp_attr_key (g.getD k dummy_material)) = true := by
    rw [getD_eq_getElem_mat g _ (firstIdx_lt_length g k hk)]
    exact h1
  exact beq_iff_eq.mp h2

theorem firstIdx_min (g : List Material) (k : Nat) (j : Nat)
    (hj : j < firstIdx g k) :
    gp_attr_key (g.getD j dummy_material) ≠ gp_attr_key (g.getD k dummy_material) := by
  intro hkey
  have hjlen : j < g.length := by
    have := @List.findIdx_le_length Material
      (fun m => gp_attr_key m == gp_attr_key (g.getD k dummy_material)) g
    have h0 : firstIdx g k =
        List.findIdx (fun m => gp_attr_key m == gp_attr_key (g.getD k dummy_material)) g := rfl
    omega
  have hfalse := @List.not_of_lt_findIdx Material
    (fun m => gp_attr_key m == gp_attr_key (g.getD k dummy_material)) g j hj
  rw [← getD_eq_getElem_mat g j hjlen] at hfalse
  rw [hkey] at hfalse
  simp at hfalse

theorem isDupAt_iff (g : List Material) (k : Nat) (hk : k < g.length) :
    isDupAt g k ↔ firstIdx g k < k := by
  constructor
  · rintro ⟨k', hk'k, hk'len, hkey⟩
    have : firstIdx g k ≤ k' := by
      by_contra h
      push_neg at h
      exact firstIdx_min g k k' h hkey
    omega
  · intro h
    exact ⟨firstIdx g k, h, firstIdx_lt_length g k hk, firstIdx_key g k hk⟩

theorem firstIdx_congr (g : List Material) (k k' : Nat)
    (hkey : gp_attr_key (g.getD k dummy_material) =
      gp_attr_key (g.getD k' dummy_material)) :
    firstIdx g k = firstIdx g k' := by
  unfold firstIdx
  rw [hkey]

theorem mem_drop_iff_of_nodup (g : List Material) (hnd : g.Nodup) (j k : Nat)
    (hk : k < g.length) :
    g.getD k dummy_material ∈ g.drop j ↔ j ≤ k := by
  constructor
  · intro h
    obtain ⟨⟨n, hn⟩, hneq⟩ := List.mem_iff_get.mp h
    have hlen : j + n < g.length := by
      have h2 := hn
      simp only [List.length_drop] at h2
      omega
    have heq : g.get ⟨j + n, hlen⟩ = g.get ⟨k, hk⟩ := by
      rw [← getD_eq_get_mat g k hk, ← hneq]
      simp [List.get_eq_getElem, List.getElem_drop]
    have := (hnd.get_inj_iff).mp heq
    have h3 : j + n = k := by
      simpa using congrArg Fin.val this
    omega
  · intro hjk
    have hn : k - j < (g.drop j).length := by
      simp only [List.length_drop]
      omega
    have heq : (g.drop j).get ⟨k - j, hn⟩ = g.getD k dummy_material := by
      rw [getD_eq_get_mat g k hk]
      simp only [List.get_eq_getElem, List.getElem_drop]
      congr 1
      omega
    rw [← heq]
    exact List.get_mem _ _ _

theorem getD_mem_mat (g : List Material) (k : Nat) (hk : k < g.length) :
    g.getD k dummy_material ∈ g := by
  rw [getD_eq_get_mat g k hk]
  exact List.get_mem g k hk

theorem cleanup_group_orphans_spec (g : List Material)
    (hGP : ∀ m ∈ g, m.is_grease_pencil = true) (hnd : g.Nodup) (i : Nat)
    (orphans : List Material)
    (hin : ∀ k, k < g.length →
      (g.getD k dummy_material ∈ orphans ↔ isDupAt g k ∧ firstIdx g k < i)) :
    ∀ m, m ∈ (cleanup_group g i orphans).2 ↔
      (m ∈ orphans ∨ ∃ k, k < g.length ∧ g.getD k dummy_material = m ∧
        isDupAt g k ∧ i ≤ firstIdx g k) := by
  intro m
  rw [cleanup_group]
  by_cases hi : i < g.length
  case neg =>
    rw [dif_neg hi]
    constructor
    · exact Or.inl
    · rintro (hm | ⟨k, hk, rfl, hdup, hfi⟩)
      · exact hm
      · exfalso
        have h1 := firstIdx_le g k hk
        omega
  case pos =>
    rw [dif_pos hi]
    dsimp only
    have hmatA : g.get ⟨i, hi⟩ = g.getD i dummy_material := (getD_eq_get_mat g i hi).symm
    by_cases hmem : g.get ⟨i, hi⟩ ∈ orphans
    · rw [if_pos hmem]
      have hd := (hin i hi).mp (hmatA ▸ hmem)
      have hin' : ∀ k, k < g.length →
          (g.getD k dummy_material ∈ orphans ↔ isDupAt g k ∧ firstIdx g k < i + 1) := by
        intro k hk
        rw [hin k hk]
        constructor
        · rintro ⟨h1, h2⟩
          exact ⟨h1, by omega⟩
        · rintro ⟨h1, h2⟩
          refine ⟨h1, ?_⟩
          rcases Nat.lt_or_ge (firstIdx g k) i with h3 | h3
          · exact h3
          · exfalso
            have hfk : firstIdx g k = i := by omega
            have hkey := firstIdx_key g k hk
            rw [hfk] at hkey
            have hcongr := firstIdx_congr g k i hkey.symm
            omega
      rw [cleanup_group_orphans_spec g hGP hnd (i + 1) orphans hin' m]
      constructor
      · rintro (hm | ⟨k, hk, rfl, hdup, hfi⟩)
        · exact Or.inl hm
        · exact Or.inr ⟨k, hk, rfl, hdup, by omega⟩
      · rintro (hm | ⟨k, hk, rfl, hdup, hfi⟩)
        · exact Or.inl hm
        · refine Or.inr ⟨k, hk, rfl, hdup, ?_⟩
          rcases Nat.lt_or_ge (firstIdx g k) (i + 1) with h3 | h3
          · exfalso
            have hfk : firstIdx g k = i := by omega
            have hkey := firstIdx_key g k hk
            rw [hfk] at hkey
            have hcongr := firstIdx_congr g k i hkey.symm
            omega
          · exact h3
    · rw [if_neg hmem]
      dsimp only
      have hfi_i : firstIdx g i = i := by
        have h1 := firstIdx_le g i hi
        rcases Nat.lt_or_ge (firstIdx g i) i with h2 | h2
        · exfalso
          apply hmem
          rw [hmatA, hin i hi]
          exact ⟨(isDupAt_iff g i hi).mpr h2, h2⟩
        · omega
      have hrs := remap_similar_spec (g.get ⟨i, hi⟩) (g.drop (i + 1)) orphans
      have hin2 : ∀ k, k < g.length →
          (g.getD k dummy_material ∈
              (remap_similar (g.get ⟨i, hi⟩) (g.drop (i + 1)) orphans).2 ↔
            isDupAt g k ∧ firstIdx g k < i + 1) := by
        intro k hk
        rw [hrs.1, hin k hk, mem_drop_iff_of_nodup g hnd (i + 1) k hk]
        have hsim : similar_ok (g.get ⟨i, hi⟩) (g.getD k dummy_material) = true ↔
            gp_attr_key (g.getD i dummy_material) =
              gp_attr_key (g.getD k dummy_material) := by
          rw [hmatA]
          exact similar_ok_iff _ _ (hGP _ (getD_mem_mat g i hi)) (hGP _ (getD_mem_mat g k hk))
        constructor
        · rintro (⟨h1, h2⟩ | ⟨h1, h2⟩)
          · exact ⟨h1, by omega⟩
          · have hkey := hsim.mp h2
            have hcongr := firstIdx_congr g k i hkey.symm
            have hfk : firstIdx g k = i := by omega
            exact ⟨(isDupAt_iff g k hk).mpr (by omega), by omega⟩
        · rintro ⟨h1, h2⟩
          rcases Nat.lt_or_ge (firstIdx g k) i with h3 | h3
          · exact Or.inl ⟨h1, h3⟩
          · have hfk : firstIdx g k = i := by omega
            have hkey := firstIdx_key g k hk
            rw [hfk] at hkey
            have hklt := (isDupAt_iff g k hk).mp h1
            exact Or.inr ⟨by omega, hsim.mpr hkey⟩
      rw [cleanup_group_orphans_spec g hGP hnd (i + 1) _ hin2 m, hrs.1 m]
      constructor
      · rintro ((hm | ⟨hm1, hm2⟩) | ⟨k, hk, rfl, hdup, hfi⟩)
        · exact Or.inl hm
        · obtain ⟨⟨n, hn⟩, hneq⟩ := List.mem_iff_get.mp hm1
          have hlen : i + 1 + n < g.length := by
            have h2 := hn
            simp only [List.length_drop] at h2
            omega
          have hgk : g.getD (i + 1 + n) dummy_material = m := by
            rw [getD_eq_get_mat g _ hlen, ← hneq]
            simp [List.get_eq_getElem, List.getElem_drop]
          have hkey : gp_attr_key (g.getD i dummy_material) =
              gp_attr_key (g.getD (i + 1 + n) dummy_material) := by
            have h4 := (similar_ok_iff (g.get ⟨i, hi⟩) m
              (hGP _ (List.get_mem g i hi))
              (hGP _ (List.drop_subset _ _ hm1))).mp hm2
            rw [hmatA] at h4
            rw [hgk]
            exact h4
          have hcongr := firstIdx_congr g (i + 1 + n) i hkey.symm
          refine Or.inr ⟨i + 1 + n, hlen, hgk, ?_, ?_⟩
          · exact (isDupAt_iff g _ hlen).mpr (by omega)
          · omega
        · exact Or.inr ⟨k, hk, rfl, hdup, by omega⟩
      · rintro (hm | ⟨k, hk, rfl, hdup, hfi⟩)
        · exact Or.inl (Or.inl hm)
        · rcases Nat.lt_or_ge (firstIdx g k) (i + 1) with h3 | h3
          · have hfk : firstIdx g k = i := by omega
            have hkey := firstIdx_key g k hk
            rw [hfk] at hkey
            have hik : i < k := by
              have := (isDupAt_iff g k hk).mp hdup
              omega
            refine Or.inl (Or.inr ⟨?_, ?_⟩)
            · exact (mem_drop_iff_of_nodup g hnd (i + 1) k hk).mpr (by omega)
            · rw [hmatA]
              exact (similar_ok_iff _ _ (hGP _ (getD_mem_mat g i hi))
                (hGP _ (getD_mem_mat g k hk))).mpr hkey
          · exact Or.inr ⟨k, hk, rfl, hdup, h3⟩
termination_by g.length - i

theorem cleanup_group_pairs_spec (g : List Material)
    (hGP : ∀ m ∈ g, m.is_grease_pencil = true) (hnd : g.Nodup) (i : Nat)
    (orphans : List Material)
    (hin : ∀ k, k < g.length →
      (g.getD k dummy_material ∈ orphans ↔ isDupAt g k ∧ firstIdx g k < i)) :
    (∀ k, k < g.length → isDupAt g k → i ≤ firstIdx g k →
      (g.getD k dummy_material, g.getD (firstIdx g k) dummy_material) ∈
        (cleanup_group g i orphans).1) ∧
    (∀ pr ∈ (cleanup_group g i orphans).1, pr.1 ∈ g ∧ pr.2 ∈ g) := by
  rw [cleanup_group]
  by_cases hi : i < g.length
  case neg =>
    rw [dif_neg hi]
    constructor
    · intro k hk hdup hfi
      exfalso
      have h1 := firstIdx_le g k hk
      omega
    · intro pr hpr
      cases hpr
  case pos =>
    rw [dif_pos hi]
    dsimp only
    have hmatA : g.get ⟨i, hi⟩ = g.getD i dummy_material := (getD_eq_get_mat g i hi).symm
    by_cases hmem : g.get ⟨i, hi⟩ ∈ orphans
    · rw [if_pos hmem]
      have hd := (hin i hi).mp (hmatA ▸ hmem)
      have hin' : ∀ k, k < g.length →
          (g.getD k dummy_material ∈ orphans ↔ isDupAt g k ∧ firstIdx g k < i + 1) := by
        intro k hk
        rw [hin k hk]
        constructor
        · rintro ⟨h1, h2⟩
          exact ⟨h1, by omega⟩
        · rintro ⟨h1, h2⟩
          refine ⟨h1, ?_⟩
          rcases Nat.lt_or_ge (firstIdx g k) i with h3 | h3
          · exact h3
          · exfalso
            have hfk : firstIdx g k = i := by omega
            have hkey := firstIdx_key g k hk
            rw [hfk] at hkey
            have hcongr := firstIdx_congr g k i hkey.symm
            omega
      have IH := cleanup_group_pairs_spec g hGP hnd (i + 1) orphans hin'
      constructor
      · intro k hk hdup hfi
        refine IH.1 k hk hdup ?_
        rcases Nat.lt_or_ge (firstIdx g k) (i + 1) with h3 | h3
        · exfalso
          have hfk : firstIdx g k = i := by omega
          have hkey := firstIdx_key g k hk
          rw [hfk] at hkey
          have hcongr := firstIdx_congr g k i hkey.symm
          omega
        · exact h3
      · exact IH.2
    · rw [if_neg hmem]
      dsimp only
      have hfi_i : firstIdx g i = i := by
        have h1 := firstIdx_le g i hi
        rcases Nat.lt_or_ge (firstIdx g i) i with h2 | h2
        · exfalso
          apply hmem
          rw [hmatA, hin i hi]
          exact ⟨(isDupAt_iff g i hi).mpr h2, h2⟩
        · omega
      have hrs := remap_similar_spec (g.get ⟨i, hi⟩) (g.drop (i + 1)) orphans
      have hin2 : ∀ k, k < g.length →
          (g.getD k dummy_material ∈
              (remap_similar (g.get ⟨i, hi⟩) (g.drop (i + 1)) orphans).2 ↔
            isDupAt g k ∧ firstIdx g k < i + 1) := by
        intro k hk
        rw [hrs.1, hin k hk, mem_drop_iff_of_nodup g hnd (i + 1) k hk]
        have hsim : similar_ok (g.get ⟨i, hi⟩) (g.getD k dummy_material) = true ↔
            gp_attr_key (g.getD i dummy_material) =
              gp_attr_key (g.getD k dummy_material) := by
          rw [hmatA]
          exact similar_ok_iff _ _ (hGP _ (getD_mem_mat g i hi)) (hGP _ (getD_mem_mat g k hk))
        constructor
        · rintro (⟨h1, h2⟩ | ⟨h1, h2⟩)
          · exact ⟨h1, by omega⟩
          · have hkey := hsim.mp h2
            have hcongr := firstIdx_congr g k i hkey.symm
            have hfk : firstIdx g k = i := by omega
            exact ⟨(isDupAt_iff g k hk).mpr (by omega), by omega⟩
        · rintro ⟨h1, h2⟩
          rcases Nat.lt_or_ge (firstIdx g k) i with h3 | h3
          · exact Or.inl ⟨h1, h3⟩
          · have hfk : firstIdx g k = i := by omega
            have hkey := firstIdx_key g k hk
            rw [hfk] at hkey
            have hklt := (isDupAt_iff g k hk).mp h1
            exact Or.inr ⟨by omega, hsim.mpr hkey⟩
      have IH := cleanup_group_pairs_spec g hGP hnd (i + 1) _ hin2
      constructor
      · intro k hk hdup hfi
        rcases Nat.lt_or_ge (firstIdx g k) (i + 1) with h3 | h3
        · have hfk : firstIdx g k = i := by omega
          have hkey := firstIdx_key g k hk
          rw [hfk] at hkey
          have hik : i < k := by
            have := (isDupAt_iff g k hk).mp hdup
            omega
          refine List.mem_append_left _ ?_
          rw [hfk]
          refine (hrs.2 (g.getD k dummy_material, g.getD i dummy_material)).mpr ⟨?_, ?_, ?_⟩
          · exact hmatA.symm
          · exact (mem_drop_iff_of_nodup g hnd (i + 1) k hk).mpr (by omega)
          · rw [hmatA]
            exact (similar_ok_iff _ _ (hGP _ (getD_mem_mat g i hi))
              (hGP _ (getD_mem_mat g k hk))).mpr hkey
        · exact List.mem_append_right _ (IH.1 k hk hdup h3)
      · intro pr hpr
        rcases List.mem_append.mp hpr with hpr1 | hpr2
        · have h1 := (hrs.2 pr).mp hpr1
          refine ⟨List.drop_subset _ _ h1.2.1, ?_⟩
          rw [h1.1]
          exact List.get_mem g i hi
        · exact IH.2 pr hpr2
termination_by g.length - i

theorem dict_append_keys {α : Type} (d : List (String × List α)) (key : String) (v : α) :
    (dict_append d key v).map Prod.fst =
      if key ∈ d.map Prod.fst then d.map Prod.fst else d.map Prod.fst ++ [key] := by
  induction d with
  | nil => simp [dict_append]
  | cons kv rest ih =>
    obtain ⟨k1, vs⟩ := kv
    by_cases h : k1 = key
    · subst h
      simp [dict_append]
    · have hne : ¬ key = k1 := fun hc => h hc.symm
      simp only [dict_append, if_neg h, List.map_cons, ih, List.mem_cons]
      by_cases h2 : key ∈ rest.map Prod.fst
      · simp [h2, hne]
      · simp [h2, hne]

theorem group_fold_keys_nodup (l : List Material) (d : List (String × List Material))
    (hd : (d.map Prod.fst).Nodup) :
    ((l.foldl (fun groups mat =>
        if palette_truthy mat then
          dict_append groups (remove_auto_numbering_suffix mat.name) mat
        else groups) d).map Prod.fst).Nodup := by
  induction l generalizing d with
  | nil => exact hd
  | cons m rest ih =>
    simp only [List.foldl_cons]
    by_cases hp : palette_truthy m
    · rw [if_pos hp]
      refine ih _ ?_
      rw [dict_append_keys]
      by_cases h2 : remove_auto_numbering_suffix m.name ∈ d.map Prod.fst
      · rw [if_pos h2]
        exact hd
      · rw [if_neg h2]
        rw [List.nodup_append]
        exact ⟨hd, List.nodup_singleton _, fun a ha hb => h2 ((List.mem_singleton.mp hb) ▸ ha)⟩
    · rw [if_neg hp]
      exact ih d hd

theorem dict_find_of_mem_nodup {α : Type} (d : List (String × List α))
    (hnd : (d.map Prod.fst).Nodup) (s : String) (g : List α) (h : (s, g) ∈ d) :
    dict_find d s = some g := by
  induction d with
  | nil => cases h
  | cons kv rest ih =>
    obtain ⟨k1, vs⟩ := kv
    rcases List.mem_cons.mp h with heq | hmem
    · obtain ⟨h1, h2⟩ := Prod.mk.inj heq.symm
      simp [dict_find, h1, h2]
    · have hs : s ∈ rest.map Prod.fst := by
        have := List.mem_map_of_mem Prod.fst hmem
        simpa using this
      have hk1 : k1 ∉ rest.map Prod.fst := by
        simp only [List.map_cons, List.nodup_cons] at hnd
        exact hnd.1
      have hne : ¬ k1 = s := fun hc => hk1 (hc ▸ hs)
      have hnd2 : (rest.map Prod.fst).Nodup := by
        simp only [List.map_cons, List.nodup_cons] at hnd
        exact hnd.2
      simp only [dict_find, if_neg hne]
      exact ih hnd2 hmem

theorem group_fold_find (l : List Material) (d : List (String × List Material))
    (F : String → List Material)
    (hinv : ∀ s, dict_find d s = if F s = [] then none else some (F s)) :
    ∀ s, dict_find (l.foldl (fun groups mat =>
        if palette_truthy mat then
          dict_append groups (remove_auto_numbering_suffix mat.name) mat
        else groups) d) s =
      (if F s ++ l.filter (fun m => palette_truthy m &&
          (remove_auto_numbering_suffix m.name == s)) = [] then none
       else some (F s ++ l.filter (fun m => palette_truthy m &&
          (remove_auto_numbering_suffix m.name == s)))) := by
  induction l generalizing d F with
  | nil =>
    intro s
    simpa using hinv s
  | cons m rest ih =>
    intro s
    simp only [List.foldl_cons]
    by_cases hp : palette_truthy m
    · rw [if_pos hp]
      have h2 := ih (dict_append d (remove_auto_numbering_suffix m.name) m)
        (fun s => F s ++ (if remove_auto_numbering_suffix m.name == s then [m] else []))
        ?_ s
      · rw [h2, List.filter_cons]
        by_cases hs : (remove_auto_numbering_suffix m.name == s) = true
        · have hpred : (palette_truthy m &&
              (remove_auto_numbering_suffix m.name == s)) = true := by
            rw [hp, hs]
            rfl
          simp [hpred, hs, hp]
        · have hsf : (remove_auto_numbering_suffix m.name == s) = false :=
            Bool.eq_false_iff.mpr hs
          have hpred : (palette_truthy m &&
              (remove_auto_numbering_suffix m.name == s)) = false := by
            rw [hsf]
            simp
          simp [hpred, hsf]
      · intro s2
        dsimp only
        rw [dict_find_append]
        by_cases hss : s2 = remove_auto_numbering_suffix m.name
        · subst hss
          rw [if_pos rfl, hinv (remove_auto_numbering_suffix m.name), beq_self_eq_true]
          by_cases hFs : F (remove_auto_numbering_suffix m.name) = [] <;> simp [hFs]
        · have hbeq : (remove_auto_numbering_suffix m.name == s2) = false :=
            beq_eq_false_iff_ne.mpr fun hc => hss hc.symm
          rw [if_neg hss, hinv s2, hbeq]
          simp only [Bool.false_eq_true, if_false, List.append_nil]
    · rw [if_neg hp]
      rw [ih d F hinv s, List.filter_cons]
      have hpred : (palette_truthy m &&
          (remove_auto_numbering_suffix m.name == s)) = false := by
        rw [Bool.eq_false_iff.mpr hp]
        simp
      simp [hpred]

theorem group_similar_candidates_spec (mats : List Material) :
    ((group_similar_candidates mats).map Prod.fst).Nodup ∧
    ∀ sg ∈ group_similar_candidates mats,
      sg.2 = mats.filter (fun m => palette_truthy m &&
        (remove_auto_numbering_suffix m.name == sg.1)) := by
  have hkeys := group_fold_keys_nodup mats [] (by simp)
  refine ⟨hkeys, ?_⟩
  intro sg hsg
  have hfind := dict_find_of_mem_nodup _ hkeys sg.1 sg.2 (by
    obtain ⟨a, b⟩ := sg
    exact hsg)
  have h2 := group_fold_find mats [] (fun _ => []) (by
    intro s
    simp [dict_find]) sg.1
  rw [hfind] at h2
  by_cases hflt : mats.filter (fun m => palette_truthy m &&
      (remove_auto_numbering_suffix m.name == sg.1)) = []
  · rw [hflt] at h2
    simp at h2
  · simp only [List.nil_append] at h2
    rw [if_neg hflt] at h2
    exact Option.some.inj h2

theorem singleton_no_dup (g : List Material) (hlen : g.length = 1) (k : Nat)
    (hk : k < g.length) : ¬ isDupAt g k := by
  rintro ⟨k', hk'k, hk'len, hkey⟩
  omega

theorem cleanup_fold_spec (groups : List (String × List Material))
    (hGP : ∀ sg ∈ groups, ∀ m ∈ sg.2, m.is_grease_pencil = true)
    (hnd : ∀ sg ∈ groups, sg.2.Nodup)
    (hpw : List.Pairwise (fun sg sg' : String × List Material =>
      ∀ m ∈ sg.2, m ∉ sg'.2) groups)
    (pairs0 : List (Material × Material)) (orphans0 : List Material)
    (hout : ∀ sg ∈ groups, ∀ m ∈ sg.2, m ∉ orphans0) :
    (∀ m, m ∈ (groups.foldl (fun acc g =>
        if g.2.length = 1 then acc
        else
          let rg := cleanup_group g.2 0 acc.2
          (acc.1 ++ rg.1, rg.2)) (pairs0, orphans0)).2 ↔
      m ∈ orphans0 ∨ ∃ sg ∈ groups, ∃ k, k < sg.2.length ∧
        sg.2.getD k dummy_material = m ∧ isDupAt sg.2 k) ∧
    (∀ sg ∈ groups, ∀ k, k < sg.2.length → isDupAt sg.2 k →
      (sg.2.getD k dummy_material, sg.2.getD (firstIdx sg.2 k) dummy_material) ∈
        (groups.foldl (fun acc g =>
          if g.2.length = 1 then acc
          else
            let rg := cleanup_group g.2 0 acc.2
            (acc.1 ++ rg.1, rg.2)) (pairs0, orphans0)).1) ∧
    (∀ pr ∈ (groups.foldl (fun acc g =>
        if g.2.length = 1 then acc
        else
          let rg := cleanup_group g.2 0 acc.2
          (acc.1 ++ rg.1, rg.2)) (pairs0, orphans0)).1,
      pr ∈ pairs0 ∨ ∃ sg ∈ groups, sg.2.length ≠ 1 ∧ pr.1 ∈ sg.2 ∧ pr.2 ∈ sg.2) ∧
    (∀ pr ∈ pairs0, pr ∈ (groups.foldl (fun acc g =>
        if g.2.length = 1 then acc
        else
          let rg := cleanup_group g.2 0 acc.2
          (acc.1 ++ rg.1, rg.2)) (pairs0, orphans0)).1) := by
  induction groups generalizing pairs0 orphans0 with
  | nil =>
    refine ⟨?_, ?_, ?_, ?_⟩
    · intro m
      simp
    · intro sg hsg
      cases hsg
    · intro pr hpr
      exact Or.inl hpr
    · intro pr hpr
      exact hpr
  | cons sg rest ih =>
    have hpw' : List.Pairwise (fun sg sg' : String × List Material =>
        ∀ m ∈ sg.2, m ∉ sg'.2) rest := (List.pairwise_cons.mp hpw).2
    have hdisj : ∀ sg' ∈ rest, ∀ m ∈ sg.2, m ∉ sg'.2 :=
      fun sg' hsg' => (List.pairwise_cons.mp hpw).1 sg' hsg'
    simp only [List.foldl_cons]
    by_cases hlen : sg.2.length = 1
    · rw [if_pos hlen]
      have IH := ih (fun sg' h => hGP sg' (List.mem_cons_of_mem _ h))
        (fun sg' h => hnd sg' (List.mem_cons_of_mem _ h)) hpw' pairs0 orphans0
        (fun sg' h => hout sg' (List.mem_cons_of_mem _ h))
      refine ⟨?_, ?_, ?_, IH.2.2.2⟩
      · intro m
        rw [IH.1 m]
        constructor
        · rintro (hm | ⟨sg', hsg', k, hk, heq, hdup⟩)
          · exact Or.inl hm
          · exact Or.inr ⟨sg', List.mem_cons_of_mem _ hsg', k, hk, heq, hdup⟩
        · rintro (hm | ⟨sg', hsg', k, hk, heq, hdup⟩)
          · exact Or.inl hm
          · rcases List.mem_cons.mp hsg' with rfl | hsg2
            · exact absurd hdup (singleton_no_dup sg'.2 hlen k hk)
            · exact Or.inr ⟨sg', hsg2, k, hk, heq, hdup⟩
      · intro sg' hsg' k hk hdup
        rcases List.mem_cons.mp hsg' with rfl | hsg2
        · exact absurd hdup (singleton_no_dup sg'.2 hlen k hk)
        · exact IH.2.1 sg' hsg2 k hk hdup
      · intro pr hpr
        rcases IH.2.2.1 pr hpr with hm | ⟨sg', hsg', h1, h2, h3⟩
        · exact Or.inl hm
        · exact Or.inr ⟨sg', List.mem_cons_of_mem _ hsg', h1, h2, h3⟩
    · rw [if_neg hlen]
      have hGPsg : ∀ m ∈ sg.2, m.is_grease_pencil = true :=
        hGP sg (List.mem_cons_self _ _)
      have hndsg : sg.2.Nodup := hnd sg (List.mem_cons_self _ _)
      have hin0 : ∀ k, k < sg.2.length →
          (sg.2.getD k dummy_material ∈ orphans0 ↔
            isDupAt sg.2 k ∧ firstIdx sg.2 k < 0) := by
        intro k hk
        constructor
        · intro hm
          exact absurd hm (hout sg (List.mem_cons_self _ _) _ (getD_mem_mat sg.2 k hk))
        · rintro ⟨-, h2⟩
          omega
      have horph := cleanup_group_orphans_spec sg.2 hGPsg hndsg 0 orphans0 hin0
      have hpairs := cleanup_group_pairs_spec sg.2 hGPsg hndsg 0 orphans0 hin0
      have hout' : ∀ sg' ∈ rest, ∀ m ∈ sg'.2,
          m ∉ (cleanup_group sg.2 0 orphans0).2 := by
        intro sg' hsg' m hm hmem
        rcases (horph m).mp hmem with h1 | ⟨k, hk, heq, -, -⟩
        · exact hout sg' (List.mem_cons_of_mem _ hsg') m hm h1
        · exact hdisj sg' hsg' m (heq ▸ getD_mem_mat sg.2 k hk) hm
      have IH := ih (fun sg' h => hGP sg' (List.mem_cons_of_mem _ h))
        (fun sg' h => hnd sg' (List.mem_cons_of_mem _ h)) hpw'
        (pairs0 ++ (cleanup_group sg.2 0 orphans0).1)
        (cleanup_group sg.2 0 orphans0).2 hout'
      refine ⟨?_, ?_, ?_, ?_⟩
      · intro m
        rw [IH.1 m]
        constructor
        · rintro (hm | ⟨sg', hsg', k, hk, heq, hdup⟩)
          · rcases (horph m).mp hm with h1 | ⟨k, hk, heq, hdup, -⟩
            · exact Or.inl h1
            · exact Or.inr ⟨sg, List.mem_cons_self _ _, k, hk, heq, hdup⟩
          · exact Or.inr ⟨sg', List.mem_cons_of_mem _ hsg', k, hk, heq, hdup⟩
        · rintro (hm | ⟨sg', hsg', k, hk, heq, hdup⟩)
          · exact Or.inl ((horph m).mpr (Or.inl hm))
          · rcases List.mem_cons.mp hsg' with rfl | hsg2
            · exact Or.inl ((horph m).mpr
                (Or.inr ⟨k, hk, heq, hdup, Nat.zero_le _⟩))
            · exact Or.inr ⟨sg', hsg2, k, hk, heq, hdup⟩
      · intro sg' hsg' k hk hdup
        rcases List.mem_cons.mp hsg' with rfl | hsg2
        · refine IH.2.2.2 _ (List.mem_append_right _ ?_)
          exact hpairs.1 k hk hdup (Nat.zero_le _)
        · exact IH.2.1 sg' hsg2 k hk hdup
      · intro pr hpr
        rcases IH.2.2.1 pr hpr with hm | ⟨sg', hsg', h1, h2, h3⟩
        · rcases List.mem_append.mp hm with hm1 | hm2
          · exact Or.inl hm1
          · have hb := hpairs.2 pr hm2
            exact Or.inr ⟨sg, List.mem_cons_self _ _, hlen, hb.1, hb.2⟩
        · exact Or.inr ⟨sg', List.mem_cons_of_mem _ hsg', h1, h2, h3⟩
      · intro pr hpr
        exact IH.2.2.2 pr (List.mem_append_left _ hpr)

theorem getD_inj_of_nodup (g : List Material) (hnd : g.Nodup) (k k' : Nat)
    (hk : k < g.length) (hk' : k' < g.length)
    (h : g.getD k dummy_material = g.getD k' dummy_material) : k = k' := by
  rw [getD_eq_get_mat g k hk, getD_eq_get_mat g k' hk'] at h
  have h2 := (hnd.get_inj_iff).mp h
  simpa using congrArg Fin.val h2

theorem group_member_facts (data : List Material) (sg : String × List Material)
    (hsg : sg ∈ group_similar_candidates (get_grease_pencil_materials data true))
    (m : Material) (hm : m ∈ sg.2) :
    m ∈ data ∧ m.is_grease_pencil = true ∧ m.library = false ∧
      palette_truthy m = true ∧ remove_auto_numbering_suffix m.name = sg.1 := by
  have hval := (group_similar_candidates_spec (get_grease_pencil_materials data true)).2
    sg hsg
  rw [hval, List.mem_filter] at hm
  obtain ⟨hmb, hpred⟩ := hm
  rw [Bool.and_eq_true] at hpred
  have h2 : remove_auto_numbering_suffix m.name = sg.1 := beq_iff_eq.mp hpred.2
  rw [get_grease_pencil_materials, List.mem_filter] at hmb
  obtain ⟨hmd, hgl⟩ := hmb
  rw [Bool.and_eq_true] at hgl
  have h4 : m.library = false := by
    have h5 := hgl.2
    simpa using h5
  exact ⟨hmd, hgl.1, h4, hpred.1, h2⟩

/-- **C3.** On material datablocks with (host-enforced) unique names,
`cleanup_duplicated_materials` considers only local grease pencil materials
with a palette component: any other material survives and appears in no
user-remap; within each short-name group, every member whose comparison
attributes equal those of an earlier member is remapped to the earliest
such member and removed, while first occurrences survive; afterwards no two
distinct remaining members of a group are similar; and members of singleton
groups are untouched. -/
theorem cleanup_duplicated_materials_spec (data : List Material)
    (hnames : (data.map Material.name).Nodup) :
    (∀ m ∈ data,
      ¬(m.is_grease_pencil = true ∧ m.library = false ∧ palette_truthy m = true) →
      m ∈ (cleanup_duplicated_materials data).2 ∧
      ∀ pr ∈ (cleanup_duplicated_materials data).1, pr.1 ≠ m ∧ pr.2 ≠ m) ∧
    (∀ sg ∈ group_similar_candidates (get_grease_pencil_materials data true),
      ∀ k, k < sg.2.length →
        (isDupAt sg.2 k →
          (sg.2.getD k dummy_material, sg.2.getD (firstIdx sg.2 k) dummy_material) ∈
            (cleanup_duplicated_materials data).1 ∧
          firstIdx sg.2 k < k ∧
          similar_ok (sg.2.getD (firstIdx sg.2 k) dummy_material)
            (sg.2.getD k dummy_material) = true ∧
          sg.2.getD k dummy_material ∉ (cleanup_duplicated_materials data).2) ∧
        (¬isDupAt sg.2 k →
          sg.2.getD k dummy_material ∈ (cleanup_duplicated_materials data).2)) ∧
    (∀ sg ∈ group_similar_candidates (get_grease_pencil_materials data true),
      ∀ a ∈ sg.2, ∀ b ∈ sg.2, a ∈ (cleanup_duplicated_materials data).2 →
        b ∈ (cleanup_duplicated_materials data).2 → a ≠ b →
        similar_ok a b = false) ∧
    (∀ sg ∈ group_similar_candidates (get_grease_pencil_materials data true),
      sg.2.length = 1 → ∀ m ∈ sg.2,
        m ∈ (cleanup_duplicated_materials data).2 ∧
        ∀ pr ∈ (cleanup_duplicated_materials data).1, pr.1 ≠ m ∧ pr.2 ≠ m) := by
  have hndata : data.Nodup := List.Nodup.of_map Material.name hnames
  have hnbase : (get_grease_pencil_materials data true).Nodup := hndata.filter _
  have hgs := group_similar_candidates_spec (get_grease_pencil_materials data true)
  have hGPg : ∀ sg ∈ group_similar_candidates (get_grease_pencil_materials data true),
      ∀ m ∈ sg.2, m.is_grease_pencil = true :=
    fun sg hsg m hm => (group_member_facts data sg hsg m hm).2.1
  have hndg : ∀ sg ∈ group_similar_candidates (get_grease_pencil_materials data true),
      sg.2.Nodup := by
    intro sg hsg
    rw [hgs.2 sg hsg]
    exact hnbase.filter _
  have hpw1 : List.Pairwise (fun a b : String × List Material => a.1 ≠ b.1)
      (group_similar_candidates (get_grease_pencil_materials data true)) :=
    List.pairwise_map.mp hgs.1
  have hpwS : List.Pairwise (fun sg sg' : String × List Material =>
      ∀ m ∈ sg.2, m ∉ sg'.2)
      (group_similar_candidates (get_grease_pencil_materials data true)) := by
    refine List.Pairwise.imp_of_mem ?_ hpw1
    intro a b ha hb hne m hma hmb
    apply hne
    rw [← (group_member_facts data a ha m hma).2.2.2.2,
      ← (group_member_facts data b hb m hmb).2.2.2.2]
  have hsymm : Symmetric (fun sg sg' : String × List Material =>
      ∀ m ∈ sg.2, m ∉ sg'.2) := by
    intro a b hab m hmb hma
    exact hab m hma hmb
  have hdisjE : ∀ sg ∈ group_similar_candidates (get_grease_pencil_materials data true),
      ∀ sg' ∈ group_similar_candidates (get_grease_pencil_materials data true),
      sg ≠ sg' → ∀ m ∈ sg.2, m ∉ sg'.2 := by
    intro sg hsg sg' hsg' hne
    exact List.Pairwise.forall hsymm hpwS hsg hsg' hne
  have hfold := cleanup_fold_spec
    (group_similar_candidates (get_grease_pencil_materials data true)) hGPg hndg hpwS
    [] [] (fun sg hsg m hm hmem => by cases hmem)
  have hcd1 : (cleanup_duplicated_materials data).1 =
      ((group_similar_candidates (get_grease_pencil_materials data true)).foldl
        (fun acc g =>
          if g.2.length = 1 then acc
          else
            let rg := cleanup_group g.2 0 acc.2
            (acc.1 ++ rg.1, rg.2)) ([], [])).1 := rfl
  have hcd2 : ∀ m, m ∈ (cleanup_duplicated_materials data).2 ↔
      m ∈ data ∧ m ∉
        ((group_similar_candidates (get_grease_pencil_materials data true)).foldl
          (fun acc g =>
            if g.2.length = 1 then acc
            else
              let rg := cleanup_group g.2 0 acc.2
              (acc.1 ++ rg.1, rg.2)) ([], [])).2 := by
    intro m
    show m ∈ data.filter _ ↔ _
    rw [List.mem_filter]
    simp
  have horphE : ∀ m, m ∈
      ((group_similar_candidates (get_grease_pencil_materials data true)).foldl
        (fun acc g =>
          if g.2.length = 1 then acc
          else
            let rg := cleanup_group g.2 0 acc.2
            (acc.1 ++ rg.1, rg.2)) ([], [])).2 ↔
      ∃ sg ∈ group_similar_candidates (get_grease_pencil_materials data true),
        ∃ k, k < sg.2.length ∧ sg.2.getD k dummy_material = m ∧ isDupAt sg.2 k := by
    intro m
    rw [hfold.1 m]
    simp
  refine ⟨?_, ?_, ?_, ?_⟩
  · intro m hm hnot
    constructor
    · rw [hcd2 m]
      refine ⟨hm, ?_⟩
      intro hmem
      obtain ⟨sg, hsg, k, hk, heq, -⟩ := (horphE m).mp hmem
      have hf := group_member_facts data sg hsg m (heq ▸ getD_mem_mat sg.2 k hk)
      exact hnot ⟨hf.2.1, hf.2.2.1, hf.2.2.2.1⟩
    · intro pr hpr
      rw [hcd1] at hpr
      rcases hfold.2.2.1 pr hpr with hm0 | ⟨sg, hsg, -, h1, h2⟩
      · cases hm0
      · constructor
        · intro hc
          have hf := group_member_facts data sg hsg pr.1 h1
          rw [hc] at hf
          exact hnot ⟨hf.2.1, hf.2.2.1, hf.2.2.2.1⟩
        · intro hc
          have hf := group_member_facts data sg hsg pr.2 h2
          rw [hc] at hf
          exact hnot ⟨hf.2.1, hf.2.2.1, hf.2.2.2.1⟩
  · intro sg hsg k hk
    constructor
    · intro hdup
      have hfi_lt := (isDupAt_iff sg.2 k hk).mp hdup
      have hfi_len := firstIdx_lt_length sg.2 k hk
      refine ⟨?_, hfi_lt, ?_, ?_⟩
      · rw [hcd1]
        exact hfold.2.1 sg hsg k hk hdup
      · refine (similar_ok_iff _ _
          (hGPg sg hsg _ (getD_mem_mat sg.2 _ hfi_len))
          (hGPg sg hsg _ (getD_mem_mat sg.2 k hk))).mpr ?_
        exact firstIdx_key sg.2 k hk
      · intro hmem
        rw [hcd2] at hmem
        exact hmem.2 ((horphE _).mpr ⟨sg, hsg, k, hk, rfl, hdup⟩)
    · intro hndup
      rw [hcd2]
      refine ⟨(group_member_facts data sg hsg _ (getD_mem_mat sg.2 k hk)).1, ?_⟩
      intro hmem
      obtain ⟨sg', hsg', k', hk', heq, hdup'⟩ := (horphE _).mp hmem
      by_cases hsgeq : sg' = sg
      · subst hsgeq
        have hkk := getD_inj_of_nodup sg'.2 (hndg sg' hsg') k' k hk' hk heq
        rw [hkk] at hdup'
        exact hndup hdup'
      · exact hdisjE sg' hsg' sg hsg hsgeq _ (getD_mem_mat sg'.2 k' hk')
          (heq ▸ getD_mem_mat sg.2 k hk)
  · intro sg hsg a ha b hb haR hbR hne
    rcases Bool.eq_false_or_eq_true (similar_ok a b) with hsim | hsim
    swap
    · exact hsim
    exfalso
    have hkey : gp_attr_key a = gp_attr_key b :=
      (similar_ok_iff a b (hGPg sg hsg a ha) (hGPg sg hsg b hb)).mp hsim
    obtain ⟨⟨ia, hia⟩, haeq⟩ := List.mem_iff_get.mp ha
    obtain ⟨⟨ib, hib⟩, hbeq⟩ := List.mem_iff_get.mp hb
    have haD : sg.2.getD ia dummy_material = a := by
      rw [getD_eq_get_mat sg.2 ia hia]
      exact haeq
    have hbD : sg.2.getD ib dummy_material = b := by
      rw [getD_eq_get_mat sg.2 ib hib]
      exact hbeq
    have hiab : ia ≠ ib := by
      intro hc
      apply hne
      rw [← haD, ← hbD, hc]
    rcases Nat.lt_or_ge ia ib with hlt | hge
    · have hdup : isDupAt sg.2 ib := ⟨ia, hlt, hia, by rw [haD, hbD]; exact hkey⟩
      rw [hcd2] at hbR
      exact hbR.2 ((horphE b).mpr ⟨sg, hsg, ib, hib, hbD, hdup⟩)
    · have hlt2 : ib < ia := by omega
      have hdup : isDupAt sg.2 ia := ⟨ib, hlt2, hib, by rw [haD, hbD]; exact hkey.symm⟩
      rw [hcd2] at haR
      exact haR.2 ((horphE a).mpr ⟨sg, hsg, ia, hia, haD, hdup⟩)
  · intro sg hsg hlen m hm
    constructor
    · rw [hcd2]
      refine ⟨(group_member_facts data sg hsg m hm).1, ?_⟩
      intro hmem
      obtain ⟨sg', hsg', k', hk', heq, hdup'⟩ := (horphE m).mp hmem
      by_cases hsgeq : sg' = sg
      · subst hsgeq
        exact singleton_no_dup sg'.2 hlen k' hk' hdup'
      · exact hdisjE sg' hsg' sg hsg hsgeq m (heq ▸ getD_mem_mat sg'.2 k' hk') hm
    · intro pr hpr
      rw [hcd1] at hpr
      rcases hfold.2.2.1 pr hpr with hm0 | ⟨sg', hsg', hlen', h1, h2⟩
      · cases hm0
      · have hsgeq : sg' = sg → False := fun hc => hlen' (hc ▸ hlen)
        constructor
        · intro hc
          by_cases hq : sg' = sg
          · exact hsgeq hq
          · exact hdisjE sg' hsg' sg hsg hq pr.1 h1 (hc ▸ hm)
        · intro hc
          by_cases hq : sg' = sg
          · exact hsgeq hq
          · exact hdisjE sg' hsg' sg hsg hq pr.2 h2 (hc ▸ hm)

/-- Witness for `cleanup_duplicated_materials_spec` at a concrete input: a
non-grease-pencil material is untouched by the cleanup. -/
theorem cleanup_duplicated_materials_spec_witness :
    (⟨"X", false, false, ⟨false, "", "", [], false, false, false, "", [], false⟩⟩ :
        Material) ∈
      (cleanup_duplicated_materials
        [⟨"P/A", true, false,
          ⟨true, "LINE", "SOLID", [0], false, false, false, "SOLID", [0], false⟩⟩,
         ⟨"X", false, false,
          ⟨false, "", "", [], false, false, false, "", [], false⟩⟩]).2 := by
  have h := cleanup_duplicated_materials_spec
    [⟨"P/A", true, false,
      ⟨true, "LINE", "SOLID", [0], false, false, false, "SOLID", [0], false⟩⟩,
     ⟨"X", false, false,
      ⟨false, "", "", [], false, false, false, "", [], false⟩⟩]
    (by decide)
  exact (h.1 _ (by decide) (by decide)).1

end Anim2D
